import Mathlib

/-!
# Ground-control-station native core: decoder, ring buffer, statistics

A shallow embedding of
* `src/cpp/core/MavlinkCore.{h,cpp}`: the byte-wise frame decoder and its dispatcher, the
  connection lifecycle and the command entry points,
* `app/src/main/cpp/telemetry/TelemetryRingBuffer.{hpp,cpp}`: the circular sample store,
* `app/src/main/cpp/telemetry/StatsCalculator.{hpp,cpp}`: the running counter,
* `app/src/main/cpp/telemetry/TelemetryEngine.{hpp,cpp}`: the producer and its lifecycle,

followed by the properties established about them.

Conventions.  A `uint8_t` is a natural number below `256`; a `size_t` is a natural number
taken modulo `SIZE_MOD`.  `float` and `double` values are carried as their bit patterns; the
one `double` division of the code is kept as its operands.  The decoder is given twice: as
far as the array `messageBuffer` goes (`processByte`), and on the whole object in its LP64
layout (`processByteInObject`), where a store past the array reaches the members behind it.  Calls that leave the object (the registered callback) and the
call of `processCompleteMessage` are recorded in an event list returned next to the new state.
Everything is single-threaded: mutexes and atomics are plain reads and writes, and the
producer thread runs as a sequence of whole loop passes placed between the calls.
-/

/-! ## MavlinkCore -/

namespace MavlinkCore

/-- Bit pattern of a `float` or `double` member (`0` is `0.0`). -/
abbrev FloatBits := Nat

/-- The struct `MavlinkCore::VehicleState` (MavlinkCore.h, lines 18-37). -/
structure VehicleState where
  connected : Bool
  armed : Bool
  mode : String
  systemId : Int
  componentId : Int
  latitude : FloatBits
  longitude : FloatBits
  altitude : FloatBits
  heading : FloatBits
  roll : FloatBits
  pitch : FloatBits
  yaw : FloatBits
  groundSpeed : FloatBits
  airSpeed : FloatBits
  batteryVoltage : FloatBits
  batteryRemaining : Int
  gpsFixType : Int
  gpsNumSatellites : Int
  deriving DecidableEq, Repr

/-- The default member initialisers of `VehicleState`. -/
def VehicleState.init : VehicleState :=
  { connected := false, armed := false, mode := "UNKNOWN", systemId := 0, componentId := 0,
    latitude := 0, longitude := 0, altitude := 0, heading := 0, roll := 0, pitch := 0,
    yaw := 0, groundSpeed := 0, airSpeed := 0, batteryVoltage := 0, batteryRemaining := 0,
    gpsFixType := 0, gpsNumSatellites := 0 }

/-- The constant `MAV_STX` (MavlinkCore.cpp, line 20). -/
def MAV_STX : Nat := 0xFE

/-- The constant `MAVLINK_MAX_PACKET_LEN` (MavlinkCore.cpp, line 21): declared `uint8_t` and
initialised from `263`, so its value is `263` reduced modulo `256`. -/
def MAVLINK_MAX_PACKET_LEN : Nat := 263 % 256

/-- The constant `MAVLINK_MSG_ID_HEARTBEAT` (MavlinkCore.cpp, line 24). -/
def MAVLINK_MSG_ID_HEARTBEAT : Nat := 0

/-- The enum `Impl::ParseState` (MavlinkCore.cpp, lines 44-54), in declaration order. -/
inductive ParseState where
  | WAITING_FOR_STX
  | GOT_STX
  | GOT_LENGTH
  | GOT_SEQ
  | GOT_SYSID
  | GOT_COMPID
  | GOT_MSGID
  | GOT_PAYLOAD
  | GOT_CHECKSUM1
  deriving DecidableEq, Repr

/-- The cast `static_cast<ParseState>(parseState + 1)`: the next enumerator in declaration
order.  The source applies it only to `GOT_LENGTH` .. `GOT_MSGID`. -/
def ParseState.next : ParseState → ParseState
  | .WAITING_FOR_STX => .GOT_STX
  | .GOT_STX => .GOT_LENGTH
  | .GOT_LENGTH => .GOT_SEQ
  | .GOT_SEQ => .GOT_SYSID
  | .GOT_SYSID => .GOT_COMPID
  | .GOT_COMPID => .GOT_MSGID
  | .GOT_MSGID => .GOT_PAYLOAD
  | .GOT_PAYLOAD => .GOT_CHECKSUM1
  | .GOT_CHECKSUM1 => .GOT_CHECKSUM1

/-- What a call makes visible outside the object: `processCompleteMessage` was entered with
the given buffer contents, or the registered callback was invoked with the given state. -/
inductive Event where
  | completeMessage (buffer : List Nat)
  | stateCallback (st : VehicleState)
  deriving DecidableEq, Repr

/-- The class `MavlinkCore::Impl` (MavlinkCore.cpp, lines 35-67).  `stateCallback` records
whether a callback target is set; `messageBuffer` is the array `messageBuffer`, of
`MAVLINK_MAX_PACKET_LEN` cells in every state built by `Impl.init`. -/
structure Impl where
  vehicleState : VehicleState
  stateCallback : Bool
  shouldStop : Bool
  parseState : ParseState
  messageBuffer : List Nat
  messageIndex : Nat
  expectedLength : Nat
  deriving DecidableEq, Repr

/-- The state built by `std::make_unique<Impl>()`: default member initialisers, a zeroed
buffer and no callback. -/
def Impl.init : Impl :=
  { vehicleState := VehicleState.init, stateCallback := false, shouldStop := false,
    parseState := .WAITING_FOR_STX, messageBuffer := List.replicate MAVLINK_MAX_PACKET_LEN 0,
    messageIndex := 0, expectedLength := 0 }

/-- The method `setStateUpdateCallback` (lines 143-145), for a non-empty callback. -/
def setStateUpdateCallback (s : Impl) : Impl :=
  { s with stateCallback := true }

/-- The assignment `messageBuffer[i] = byte`, as far as the array goes.  A store inside the
array replaces that cell.  A store at an index past the last cell is not a store into the
array and leaves it as it is.  Such a store lands in the bytes that follow the array in the
object: padding up to index 11, the member `messageIndex` from index 12 on.  What it does to
the other members is given by `storeInObject`; the two agree while the index is below 12. -/
def store (buffer : List Nat) (i byte : Nat) : List Nat :=
  buffer.set i byte

/-- The read `messageBuffer[i]`. -/
def load (buffer : List Nat) (i : Nat) : Nat :=
  buffer.getD i 0

/-- The method `Impl::updateState` (lines 219-223): invoke the callback when one is set. -/
def updateState (s : Impl) (newState : VehicleState) : List Event :=
  if s.stateCallback then [Event.stateCallback newState] else []

/-- The method `Impl::processCompleteMessage` (lines 198-217). -/
def processCompleteMessage (s : Impl) : Impl × List Event :=
  let msgId := load s.messageBuffer 5
  if msgId = MAVLINK_MSG_ID_HEARTBEAT then
    let s1 : Impl :=
      { s with vehicleState :=
          { s.vehicleState with
              connected := true
              systemId := (load s.messageBuffer 3 : Nat)
              componentId := (load s.messageBuffer 4 : Nat) } }
    (s1, updateState s1 s1.vehicleState)
  else
    (s, [])

/-- The method `Impl::processByte` (lines 153-196), with the stores as far as the array
goes (`store`).  It describes the call whenever the cell written has an index below 12;
`processByteInObject` describes it for the other indices too. -/
def processByte (s : Impl) (byte : Nat) : Impl × List Event :=
  match s.parseState with
  | .WAITING_FOR_STX =>
    if byte = MAV_STX then
      ({ s with
          messageBuffer := store s.messageBuffer 0 byte
          messageIndex := 1
          parseState := .GOT_STX }, [])
    else
      (s, [])
  | .GOT_STX =>
    ({ s with
        expectedLength := byte
        messageBuffer := store s.messageBuffer s.messageIndex byte
        messageIndex := s.messageIndex + 1
        parseState := .GOT_LENGTH }, [])
  | .GOT_PAYLOAD =>
    ({ s with
        messageBuffer := store s.messageBuffer s.messageIndex byte
        messageIndex := s.messageIndex + 1
        parseState :=
          if s.messageIndex + 1 ≥ 6 + s.expectedLength then .GOT_CHECKSUM1 else .GOT_PAYLOAD },
      [])
  | .GOT_CHECKSUM1 =>
    let s1 : Impl :=
      { s with
          messageBuffer := store s.messageBuffer s.messageIndex byte
          messageIndex := s.messageIndex + 1 }
    let r := processCompleteMessage s1
    ({ r.1 with parseState := .WAITING_FOR_STX, messageIndex := 0 },
      Event.completeMessage s1.messageBuffer :: r.2)
  | st =>
    -- GOT_LENGTH, GOT_SEQ, GOT_SYSID, GOT_COMPID, GOT_MSGID
    ({ s with
        messageBuffer := store s.messageBuffer s.messageIndex byte
        messageIndex := s.messageIndex + 1
        parseState :=
          if st.next = .GOT_PAYLOAD ∧ s.expectedLength = 0 then .GOT_CHECKSUM1 else st.next },
      [])

/-- The method `MavlinkCore::processMessage` (lines 147-151): `processByte` on every byte in
order; the events of the calls are concatenated. -/
def processMessage (s : Impl) : List Nat → Impl × List Event
  | [] => (s, [])
  | byte :: rest =>
    let r := processByte s byte
    let r2 := processMessage r.1 rest
    (r2.1, r.2 ++ r2.2)

/-- One `processMessage` call per byte, each with a one-byte array. -/
def processEachByte (s : Impl) : List Nat → Impl × List Event
  | [] => (s, [])
  | byte :: rest =>
    let r := processMessage s [byte]
    let r2 := processEachByte r.1 rest
    (r2.1, r.2 ++ r2.2)

/-- The states the callback was invoked with, in order. -/
def notifications : List Event → List VehicleState
  | [] => []
  | Event.stateCallback st :: rest => st :: notifications rest
  | Event.completeMessage _ :: rest => notifications rest

/-- The number of times `processCompleteMessage` was entered. -/
def completions : List Event → Nat
  | [] => 0
  | Event.completeMessage _ :: rest => completions rest + 1
  | Event.stateCallback _ :: rest => completions rest

end MavlinkCore

/-! ## Telemetry: messages, ring buffer, statistics -/

/-- The modulus of `size_t` and of `uint64_t` arithmetic: both are 64 bits wide. -/
def SIZE_MOD : Nat := 2 ^ 64

/-- The enum `TelemetryMessage::Type` (TelemetryMessage.hpp, line 6). -/
inductive MessageType where
  | Heartbeat
  | Attitude
  | GPS
  | Battery
  deriving DecidableEq, Repr

/-- The struct `TelemetryMessage` (TelemetryMessage.hpp, lines 5-11). -/
structure TelemetryMessage where
  type : MessageType
  monotonicNs : Nat
  seq : Nat
  v1 : MavlinkCore.FloatBits
  v2 : MavlinkCore.FloatBits
  v3 : MavlinkCore.FloatBits
  deriving DecidableEq, Repr

/-- A value-initialised `TelemetryMessage`, as `std::vector<TelemetryMessage>(capacity)`
creates in every slot. -/
def TelemetryMessage.zero : TelemetryMessage :=
  { type := .Heartbeat, monotonicNs := 0, seq := 0, v1 := 0, v2 := 0, v3 := 0 }

/-- The members of class `TelemetryRingBuffer` (TelemetryRingBuffer.hpp, lines 13-16). -/
structure TelemetryRingBuffer where
  buf_ : List TelemetryMessage
  cap_ : Nat
  head_ : Nat
  count_ : Nat
  deriving DecidableEq, Repr

namespace TelemetryRingBuffer

/-- The constructor `TelemetryRingBuffer(size_t capacity)` (TelemetryRingBuffer.cpp, line 2). -/
def new (capacity : Nat) : TelemetryRingBuffer :=
  { buf_ := List.replicate capacity TelemetryMessage.zero, cap_ := capacity,
    head_ := 0, count_ := 0 }

/-- The method `push` (TelemetryRingBuffer.cpp, line 3): `head_.fetch_add(1)` returns the old
cursor and wraps at the width of `size_t`; the message goes to slot `h % cap_`; the count
grows by one while it is below `cap_`. -/
def push (rb : TelemetryRingBuffer) (msg : TelemetryMessage) : TelemetryRingBuffer :=
  let h := rb.head_
  let c := rb.count_
  { rb with
      head_ := (rb.head_ + 1) % SIZE_MOD
      buf_ := rb.buf_.set (h % rb.cap_) msg
      count_ := if c < rb.cap_ then c + 1 else c }

/-- The `size_t` expression `h - 1 - i`, which wraps below zero. -/
def cursorBack (h i : Nat) : Nat :=
  Int.toNat (((h : Int) - 1 - (i : Int)) % (SIZE_MOD : Int))

/-- The method `latest` (TelemetryRingBuffer.cpp, line 4): empty when the count is zero,
else the slots `(h - 1 - i) % cap_` for `i = 0, .., min(maxCount, c) - 1`, in that order. -/
def latest (rb : TelemetryRingBuffer) (maxCount : Nat) : List TelemetryMessage :=
  let c := rb.count_
  if c = 0 then []
  else
    let h := rb.head_
    let n := min maxCount c
    (List.range n).map fun i => rb.buf_.getD (cursorBack h i % rb.cap_) TelemetryMessage.zero

/-- The method `size` (TelemetryRingBuffer.hpp, line 11). -/
def size (rb : TelemetryRingBuffer) : Nat :=
  rb.count_

/-- A run of `push` calls, one per message, in list order. -/
def pushAll (rb : TelemetryRingBuffer) (msgs : List TelemetryMessage) : TelemetryRingBuffer :=
  msgs.foldl push rb

end TelemetryRingBuffer

/-- The member of class `StatsCalculator` (StatsCalculator.hpp, line 10). -/
structure StatsCalculator where
  total_ : Nat
  deriving DecidableEq, Repr

namespace StatsCalculator

/-- A freshly constructed `StatsCalculator`: `total_{0}`. -/
def new : StatsCalculator :=
  { total_ := 0 }

/-- The method `record` (StatsCalculator.cpp, line 3): `total_.fetch_add(1)` on a 64-bit
unsigned counter; the argument is not used. -/
def record (s : StatsCalculator) (_type : Nat) : StatsCalculator :=
  { total_ := (s.total_ + 1) % SIZE_MOD }

/-- A run of `record` calls, one per type argument, in list order. -/
def recordAll (s : StatsCalculator) (types : List Nat) : StatsCalculator :=
  types.foldl record s

end StatsCalculator

/-! ## MavlinkCore: connection lifecycle, commands, store indices -/

namespace MavlinkCore

/-- The method `MavlinkCore::stopConnection` (MavlinkCore.cpp, lines 96-112).  The member
`networkThread` is never assigned a thread, so `joinable()` is false and the join is
skipped. -/
def stopConnection (s : Impl) : Impl × List Event :=
  if s.shouldStop then (s, [])
  else
    let s1 : Impl :=
      { s with
          shouldStop := true
          vehicleState := { s.vehicleState with connected := false } }
    (s1, updateState s1 s1.vehicleState)

/-- The method `MavlinkCore::startConnection` (MavlinkCore.cpp, lines 78-94): the new state,
the events of the call, and the returned value.  The arguments are only logged. -/
def startConnection (s : Impl) (_host : String) (_port : Int) : Impl × List Event × Bool :=
  let r := stopConnection s
  let s1 : Impl :=
    { r.1 with
        shouldStop := false
        vehicleState := { r.1.vehicleState with connected := true } }
  (s1, r.2 ++ updateState s1 s1.vehicleState, true)

/-- The method `MavlinkCore::isConnected` (MavlinkCore.cpp, lines 114-117). -/
def isConnected (s : Impl) : Bool :=
  s.vehicleState.connected

/-- The function `mavlink_core_start_connection` (MavlinkCore.cpp, lines 244-247), for a
non-null core and a non-null host. -/
def mavlink_core_start_connection (s : Impl) (host : String) (port : Int) :
    Impl × List Event × Int :=
  let r := startConnection s host port
  (r.1, r.2.1, if r.2.2 then 1 else 0)

/-- A call of one of the three public methods the connection state depends on. -/
inductive CoreCall where
  | startConnection (host : String) (port : Int)
  | stopConnection
  | processMessage (data : List Nat)
  deriving DecidableEq, Repr

/-- The state after one call. -/
def CoreCall.run (s : Impl) : CoreCall → Impl
  | .startConnection host port => (MavlinkCore.startConnection s host port).1
  | .stopConnection => (MavlinkCore.stopConnection s).1
  | .processMessage data => (MavlinkCore.processMessage s data).1

/-- The state after a sequence of calls, in list order. -/
def runCalls (s : Impl) (calls : List CoreCall) : Impl :=
  calls.foldl CoreCall.run s

/-- The bit pattern of the `float` literal `1.0f`. -/
def FLOAT_ONE : FloatBits := 0x3F800000

/-- The constant `MAV_CMD_COMPONENT_ARM_DISARM` (MavlinkCore.cpp, line 31). -/
def MAV_CMD_COMPONENT_ARM_DISARM : Nat := 400

/-- The constant `MAV_CMD_NAV_TAKEOFF` (MavlinkCore.cpp, line 32). -/
def MAV_CMD_NAV_TAKEOFF : Nat := 22

/-- The constant `MAV_CMD_NAV_RETURN_TO_LAUNCH` (MavlinkCore.cpp, line 33). -/
def MAV_CMD_NAV_RETURN_TO_LAUNCH : Nat := 20

/-- The arguments of one `sendCommand` call, as its log line prints them. -/
structure CommandLog where
  command : Nat
  param1 : FloatBits
  param2 : FloatBits
  param3 : FloatBits
  param4 : FloatBits
  param5 : FloatBits
  param6 : FloatBits
  param7 : FloatBits
  deriving DecidableEq, Repr

/-- What a `sendCommand` call does: the line it logs and the bytes it hands to a
transport. -/
structure CommandEffect where
  logged : CommandLog
  outbound : List Nat
  deriving DecidableEq, Repr

/-- The method `Impl::sendCommand` (MavlinkCore.cpp, lines 225-232): the body is the log call
alone; no byte is built or sent and no member is written. -/
def sendCommand (s : Impl) (command : Nat)
    (param1 param2 param3 param4 param5 param6 param7 : FloatBits) : Impl × CommandEffect :=
  (s, { logged := { command := command, param1 := param1, param2 := param2,
                    param3 := param3, param4 := param4, param5 := param5,
                    param6 := param6, param7 := param7 },
        outbound := [] })

/-- The method `MavlinkCore::armDisarm` (MavlinkCore.cpp, lines 119-122); the six trailing
arguments are the declared defaults `0.0f`. -/
def armDisarm (s : Impl) (arm : Bool) : Impl × CommandEffect :=
  sendCommand s MAV_CMD_COMPONENT_ARM_DISARM (if arm then FLOAT_ONE else 0) 0 0 0 0 0 0

/-- The method `MavlinkCore::returnToLaunch` (MavlinkCore.cpp, lines 124-127); all seven
arguments are the declared defaults `0.0f`. -/
def returnToLaunch (s : Impl) : Impl × CommandEffect :=
  sendCommand s MAV_CMD_NAV_RETURN_TO_LAUNCH 0 0 0 0 0 0 0

/-- The method `MavlinkCore::takeoff` (MavlinkCore.cpp, lines 129-132). -/
def takeoff (s : Impl) (altitude : FloatBits) : Impl × CommandEffect :=
  sendCommand s MAV_CMD_NAV_TAKEOFF 0 0 0 0 0 0 altitude

/-- The shape of an inbound frame: start marker first, then `6 + L + 2` bytes in all, `L`
being the second byte. -/
def frameShaped (bytes : List Nat) : Bool :=
  bytes.head? == some MAV_STX && bytes.length == 6 + bytes.getD 1 0 + 2

/-- The index of the cell `processByte` writes (`messageBuffer[0]` or
`messageBuffer[messageIndex++]`), if the call writes one. -/
def storeIndex (s : Impl) (byte : Nat) : Option Nat :=
  match s.parseState with
  | .WAITING_FOR_STX => if byte = MAV_STX then some 0 else none
  | _ => some s.messageIndex

/-- The indices written by `processMessage`, one `processByte` call after the other. -/
def storeIndices (s : Impl) : List Nat → List Nat
  | [] => []
  | byte :: rest =>
    (storeIndex s byte).toList ++ storeIndices (processByte s byte).1 rest

/-- The 64-bit value `v` with its byte number `k` replaced by `byte`, byte 0 being the least
significant one. -/
def setByte (v k byte : Nat) : Nat :=
  v - (v / 256 ^ k % 256) * 256 ^ k + byte * 256 ^ k

/-- The assignment `messageBuffer[i] = byte` as a write into the `Impl` object, for the LP64
layout of the members declared at MavlinkCore.cpp lines 56-59: `messageBuffer` takes the
indices 0 to 6, five bytes of padding the indices 7 to 11, `messageIndex` (8 bytes, least
significant first) the indices 12 to 19, `expectedLength` the index 20, and the padding that
ends the object the indices 21 to 27.  A write at index 28 or beyond leaves the object and is
not described: `none`. -/
def storeInObject (s : Impl) (i byte : Nat) : Option Impl :=
  if i < MAVLINK_MAX_PACKET_LEN then some { s with messageBuffer := s.messageBuffer.set i byte }
  else if i < 12 then some s
  else if i < 20 then some { s with messageIndex := setByte s.messageIndex (i - 12) byte }
  else if i = 20 then some { s with expectedLength := byte }
  else if i < 28 then some s
  else none

/-- The statement `messageBuffer[messageIndex++] = byte` on the object: the index is read
and incremented, then the byte is written at the index read. -/
def storeAndAdvance (s : Impl) (byte : Nat) : Option Impl :=
  storeInObject { s with messageIndex := (s.messageIndex + 1) % SIZE_MOD } s.messageIndex byte

/-- The method `Impl::processByte` (lines 153-196) with every store a write into the object
(`storeInObject`); `none` when a store leaves the object. -/
def processByteInObject (s : Impl) (byte : Nat) : Option (Impl × List Event) :=
  match s.parseState with
  | .WAITING_FOR_STX =>
    if byte = MAV_STX then
      match storeInObject s 0 byte with
      | none => none
      | some s1 => some ({ s1 with messageIndex := 1, parseState := .GOT_STX }, [])
    else
      some (s, [])
  | .GOT_STX =>
    match storeAndAdvance { s with expectedLength := byte } byte with
    | none => none
    | some s1 => some ({ s1 with parseState := .GOT_LENGTH }, [])
  | .GOT_PAYLOAD =>
    match storeAndAdvance s byte with
    | none => none
    | some s1 =>
      some ({ s1 with
              parseState :=
                if s1.messageIndex ≥ 6 + s1.expectedLength then .GOT_CHECKSUM1
                else .GOT_PAYLOAD }, [])
  | .GOT_CHECKSUM1 =>
    match storeAndAdvance s byte with
    | none => none
    | some s1 =>
      let r := processCompleteMessage s1
      some ({ r.1 with parseState := .WAITING_FOR_STX, messageIndex := 0 },
        Event.completeMessage s1.messageBuffer :: r.2)
  | st =>
    -- GOT_LENGTH, GOT_SEQ, GOT_SYSID, GOT_COMPID, GOT_MSGID
    match storeAndAdvance s byte with
    | none => none
    | some s1 =>
      some ({ s1 with
              parseState :=
                if st.next = .GOT_PAYLOAD ∧ s1.expectedLength = 0 then .GOT_CHECKSUM1
                else st.next }, [])

/-- The method `MavlinkCore::processMessage` (lines 147-151) over `processByteInObject`. -/
def processMessageInObject (s : Impl) : List Nat → Option (Impl × List Event)
  | [] => some (s, [])
  | byte :: rest =>
    match processByteInObject s byte with
    | none => none
    | some r =>
      match processMessageInObject r.1 rest with
      | none => none
      | some r2 => some (r2.1, r.2 ++ r2.2)

/-- Where the write index may stand in each parse state, with the length byte a
`uint8_t`. -/
def IndexInRange (s : Impl) : Prop :=
  s.expectedLength ≤ 255 ∧
  match s.parseState with
  | .WAITING_FOR_STX => s.messageIndex = 0
  | .GOT_STX => s.messageIndex = 1
  | .GOT_LENGTH => s.messageIndex = 2
  | .GOT_SEQ => s.messageIndex = 3
  | .GOT_SYSID => s.messageIndex = 4
  | .GOT_COMPID => s.messageIndex = 5
  | .GOT_MSGID => s.messageIndex = 6
  | .GOT_PAYLOAD => 7 ≤ s.messageIndex ∧ s.messageIndex ≤ 6 + s.expectedLength
  | .GOT_CHECKSUM1 => 7 ≤ s.messageIndex ∧ s.messageIndex ≤ 6 + s.expectedLength + 1

end MavlinkCore

/-! ## TelemetryEngine -/

/-- The modulus of `uint32_t` arithmetic. -/
def UINT32_MOD : Nat := 2 ^ 32

/-- The cast `static_cast<TelemetryMessage::Type>(n)` for `n` in `0..3`. -/
def MessageType.fromUInt : Nat → MessageType
  | 0 => .Heartbeat
  | 1 => .Attitude
  | 2 => .GPS
  | _ => .Battery

/-- The cast `(uint8_t)type`. -/
def MessageType.toUInt8 : MessageType → Nat
  | .Heartbeat => 0
  | .Attitude => 1
  | .GPS => 2
  | .Battery => 3

/-- The members of class `TelemetryEngine` (TelemetryEngine.hpp, lines 17-23).  `th_` is
whether the handle owns a thread (`joinable()`); `rng_` is left out, its draws are inputs of
the loop; `liveThreads` counts the threads started and not yet joined. -/
structure TelemetryEngine where
  th_ : Bool
  running_ : Bool
  buffer_ : TelemetryRingBuffer
  stats_ : StatsCalculator
  seq_ : Nat
  startTs_ : Nat
  liveThreads : Nat
  deriving DecidableEq, Repr

/-- What one pass of the producer loop reads from outside: the clock and three draws. -/
structure LoopInput where
  now : Nat
  v1 : MavlinkCore.FloatBits
  v2 : MavlinkCore.FloatBits
  v3 : MavlinkCore.FloatBits
  deriving DecidableEq, Repr

namespace TelemetryEngine

/-- The constructor `TelemetryEngine()` (TelemetryEngine.cpp, line 5). -/
def new : TelemetryEngine :=
  { th_ := false, running_ := false, buffer_ := TelemetryRingBuffer.new 10000,
    stats_ := StatsCalculator.new, seq_ := 0, startTs_ := 0, liveThreads := 0 }

/-- The method `start` (TelemetryEngine.cpp, line 7), at clock reading `now`.  Assigning a
new thread to a handle that still owns one ends the process: `none`. -/
def start (e : TelemetryEngine) (now : Nat) : Option TelemetryEngine :=
  if e.running_ then some e
  else if e.th_ then none
  else some { e with running_ := true, startTs_ := now, th_ := true,
                     liveThreads := e.liveThreads + 1 }

/-- The method `stop` (TelemetryEngine.cpp, line 8): `join` returns once the thread has left
its loop and ended. -/
def stop (e : TelemetryEngine) : TelemetryEngine :=
  if !e.running_ then e
  else if e.th_ then { e with running_ := false, th_ := false,
                              liveThreads := e.liveThreads - 1 }
  else { e with running_ := false }

/-- The body of the loop in `run` (TelemetryEngine.cpp, line 9): the message built, pushed
and recorded, next to the new state. -/
def iteration (e : TelemetryEngine) (inp : LoopInput) : TelemetryEngine × TelemetryMessage :=
  let seq := (e.seq_ + 1) % UINT32_MOD
  let m : TelemetryMessage :=
    { seq := seq, type := MessageType.fromUInt (seq % 4), monotonicNs := inp.now,
      v1 := inp.v1, v2 := inp.v2, v3 := inp.v3 }
  ({ e with seq_ := seq, buffer_ := e.buffer_.push m, stats_ := e.stats_.record m.type.toUInt8 },
    m)

/-- One test of the loop condition `while(running_)` by the background thread, followed by
the body when it holds. -/
def loopPass (e : TelemetryEngine) (inp : LoopInput) :
    TelemetryEngine × List TelemetryMessage :=
  if e.th_ && e.running_ then ((iteration e inp).1, [(iteration e inp).2]) else (e, [])

/-- The method `latestBatchJson` (TelemetryEngine.cpp, line 11), as the list of messages it
prints, one JSON object each.  The `int` argument is converted to `size_t`. -/
def latestBatchJson (e : TelemetryEngine) (maxCount : Int) : List TelemetryMessage :=
  e.buffer_.latest (Int.toNat (maxCount % (SIZE_MOD : Int)))

end TelemetryEngine

/-- A step of an engine run: a `start` call, a `stop` call, or one pass of the loop. -/
inductive EngineStep where
  | start (now : Nat)
  | stop
  | pass (inp : LoopInput)
  deriving DecidableEq, Repr

namespace TelemetryEngine

/-- The state after a sequence of steps and the messages synthesized on the way, in order;
`none` when a `start` ends the process. -/
def exec (e : TelemetryEngine) : List EngineStep → Option (TelemetryEngine × List TelemetryMessage)
  | [] => some (e, [])
  | .start now :: rest =>
    match start e now with
    | none => none
    | some e1 => exec e1 rest
  | .stop :: rest => exec (stop e) rest
  | .pass inp :: rest =>
    match exec (loopPass e inp).1 rest with
    | none => none
    | some (e2, made) => some (e2, (loopPass e inp).2 ++ made)

end TelemetryEngine

/-! ## Properties of the decoder -/

namespace MavlinkCore

theorem buffer_of_length_seven (buffer : List Nat)
    (h : buffer.length = MAVLINK_MAX_PACKET_LEN) :
    ∃ a0 a1 a2 a3 a4 a5 a6, buffer = [a0, a1, a2, a3, a4, a5, a6] := by
  match buffer, h with
  | [a0, a1, a2, a3, a4, a5, a6], _ => exact ⟨a0, a1, a2, a3, a4, a5, a6, rfl⟩

/-- C1: a zero-payload heartbeat frame `[0xFE, 0, seq, sysid, compid, 0, c1, c2]` fed through
`processMessage` to a decoder in `WAITING_FOR_STX` with a callback set invokes the callback
exactly once, with the stored state updated to `connected = true`, `systemId = sysid`,
`componentId = compid`. -/
theorem heartbeat_frame_notifies_once (s : Impl) (seq sysid compid c1 c2 : Nat)
    (hstate : s.parseState = ParseState.WAITING_FOR_STX)
    (hcb : s.stateCallback = true)
    (hlen : s.messageBuffer.length = MAVLINK_MAX_PACKET_LEN) :
    ∃ st : VehicleState,
      notifications (processMessage s [0xFE, 0x00, seq, sysid, compid, 0x00, c1, c2]).2 = [st]
      ∧ st.connected = true ∧ st.systemId = sysid ∧ st.componentId = compid
      ∧ st = { s.vehicleState with
                 connected := true, systemId := sysid, componentId := compid } := by
  obtain ⟨a0, a1, a2, a3, a4, a5, a6, hbuf⟩ := buffer_of_length_seven s.messageBuffer hlen
  refine ⟨{ s.vehicleState with connected := true, systemId := sysid, componentId := compid },
    ?_, rfl, rfl, rfl, rfl⟩
  simp [processMessage, processByte, processCompleteMessage, updateState, notifications,
    store, load, hstate, hcb, hbuf, MAV_STX, MAVLINK_MSG_ID_HEARTBEAT, ParseState.next]

/-- The spec's instance of C1: seq = 1, sysid = 2, compid = 3, on a freshly built decoder
with a callback registered. -/
theorem heartbeat_frame_notifies_once_witness :
    ∃ st : VehicleState,
      notifications (processMessage (setStateUpdateCallback Impl.init)
        [0xFE, 0x00, 1, 2, 3, 0x00, 0x5A, 0xA5]).2 = [st]
      ∧ st.connected = true ∧ st.systemId = ((2 : Nat) : Int) ∧ st.componentId = ((3 : Nat) : Int)
      ∧ st = { (setStateUpdateCallback Impl.init).vehicleState with
                 connected := true, systemId := ((2 : Nat) : Int),
                 componentId := ((3 : Nat) : Int) } :=
  heartbeat_frame_notifies_once (setStateUpdateCallback Impl.init) 1 2 3 0x5A 0xA5
    rfl rfl rfl

theorem processMessage_append_eq (s : Impl) (xs ys : List Nat) :
    processMessage s (xs ++ ys)
      = ((processMessage (processMessage s xs).1 ys).1,
         (processMessage s xs).2 ++ (processMessage (processMessage s xs).1 ys).2) := by
  induction xs generalizing s with
  | nil => simp [processMessage]
  | cons b bs ih => simp [processMessage, ih, List.append_assoc]

theorem processEachByte_eq (s : Impl) (xs : List Nat) :
    processEachByte s xs = processMessage s xs := by
  induction xs generalizing s with
  | nil => simp [processEachByte, processMessage]
  | cons b bs ih => simp [processEachByte, processMessage, ih]

/-- C3: chunking invariance.  `processMessage` on `xs ++ ys` gives the same final state
(decoder and vehicle state) and the same event sequence, hence the same callback
invocations, as `processMessage` on `xs` followed by `processMessage` on `ys`; and one call
per byte gives the same result as a single call. -/
theorem processMessage_chunking_invariant (s : Impl) (xs ys : List Nat) :
    processMessage s (xs ++ ys)
        = ((processMessage (processMessage s xs).1 ys).1,
           (processMessage s xs).2 ++ (processMessage (processMessage s xs).1 ys).2)
    ∧ notifications (processMessage s (xs ++ ys)).2
        = notifications
            ((processMessage s xs).2 ++ (processMessage (processMessage s xs).1 ys).2)
    ∧ processEachByte s xs = processMessage s xs := by
  refine ⟨processMessage_append_eq s xs ys, ?_, processEachByte_eq s xs⟩
  rw [processMessage_append_eq]

/-- C8: a byte other than the start marker, received in `WAITING_FOR_STX`, leaves the whole
state (parse state, index, expected length, buffer, vehicle state) as it was and produces no
event. -/
theorem noise_byte_is_skipped (s : Impl) (byte : Nat)
    (hstate : s.parseState = ParseState.WAITING_FOR_STX) (hbyte : byte ≠ MAV_STX) :
    processByte s byte = (s, []) := by
  simp [processByte, hstate, hbyte]

/-- An instance of C8: byte `0x11` on a freshly built decoder. -/
theorem noise_byte_is_skipped_witness :
    processByte Impl.init 0x11 = (Impl.init, []) :=
  noise_byte_is_skipped Impl.init 0x11 rfl (by decide)

/-- C9: when the frame completed by `byte` has a message id (buffer cell 5) other than the
heartbeat id `0`, `processCompleteMessage` changes nothing and produces no event, so the
vehicle state is kept, the callback is not invoked, and `processByte` still resets the
decoder to `WAITING_FOR_STX` with index `0`. -/
theorem unknown_message_id_is_ignored (s : Impl) (byte : Nat)
    (hstate : s.parseState = ParseState.GOT_CHECKSUM1)
    (hid : load (store s.messageBuffer s.messageIndex byte) 5 ≠ MAVLINK_MSG_ID_HEARTBEAT) :
    processCompleteMessage
        { s with
            messageBuffer := store s.messageBuffer s.messageIndex byte
            messageIndex := s.messageIndex + 1 }
      = ({ s with
            messageBuffer := store s.messageBuffer s.messageIndex byte
            messageIndex := s.messageIndex + 1 }, [])
    ∧ (processByte s byte).1.vehicleState = s.vehicleState
    ∧ notifications (processByte s byte).2 = []
    ∧ (processByte s byte).1.parseState = ParseState.WAITING_FOR_STX
    ∧ (processByte s byte).1.messageIndex = 0 := by
  simp [processByte, processCompleteMessage, hstate, hid, notifications]

/-- An instance of C9: a frame with message id `7`, callback registered. -/
theorem unknown_message_id_is_ignored_witness :
    processCompleteMessage
        { (processMessage (setStateUpdateCallback Impl.init) [0xFE, 0, 1, 2, 3, 7, 9]).1 with
            messageBuffer :=
              store (processMessage (setStateUpdateCallback Impl.init)
                  [0xFE, 0, 1, 2, 3, 7, 9]).1.messageBuffer
                (processMessage (setStateUpdateCallback Impl.init)
                  [0xFE, 0, 1, 2, 3, 7, 9]).1.messageIndex 9
            messageIndex :=
              (processMessage (setStateUpdateCallback Impl.init)
                [0xFE, 0, 1, 2, 3, 7, 9]).1.messageIndex + 1 }
      = ({ (processMessage (setStateUpdateCallback Impl.init) [0xFE, 0, 1, 2, 3, 7, 9]).1 with
            messageBuffer :=
              store (processMessage (setStateUpdateCallback Impl.init)
                  [0xFE, 0, 1, 2, 3, 7, 9]).1.messageBuffer
                (processMessage (setStateUpdateCallback Impl.init)
                  [0xFE, 0, 1, 2, 3, 7, 9]).1.messageIndex 9
            messageIndex :=
              (processMessage (setStateUpdateCallback Impl.init)
                [0xFE, 0, 1, 2, 3, 7, 9]).1.messageIndex + 1 }, [])
    ∧ (processByte (processMessage (setStateUpdateCallback Impl.init)
          [0xFE, 0, 1, 2, 3, 7, 9]).1 9).1.vehicleState
        = (processMessage (setStateUpdateCallback Impl.init)
          [0xFE, 0, 1, 2, 3, 7, 9]).1.vehicleState
    ∧ notifications (processByte (processMessage (setStateUpdateCallback Impl.init)
          [0xFE, 0, 1, 2, 3, 7, 9]).1 9).2 = []
    ∧ (processByte (processMessage (setStateUpdateCallback Impl.init)
          [0xFE, 0, 1, 2, 3, 7, 9]).1 9).1.parseState = ParseState.WAITING_FOR_STX
    ∧ (processByte (processMessage (setStateUpdateCallback Impl.init)
          [0xFE, 0, 1, 2, 3, 7, 9]).1 9).1.messageIndex = 0 :=
  unknown_message_id_is_ignored
    (processMessage (setStateUpdateCallback Impl.init) [0xFE, 0, 1, 2, 3, 7, 9]).1 9
    (by decide) (by decide)

theorem completions_processCompleteMessage (s : Impl) :
    completions (processCompleteMessage s).2 = 0 := by
  unfold processCompleteMessage updateState
  simp only []
  split
  · split <;> simp [completions]
  · simp [completions]

/-- C10: while a frame with length byte `0` is consumed from `WAITING_FOR_STX`, the decoder
is never in `GOT_PAYLOAD`: after the message-id byte (six bytes) it is in `GOT_MSGID`, after
the first trailer byte in `GOT_CHECKSUM1` with nothing emitted, and the second trailer byte
emits the frame once and resets the decoder. -/
theorem zero_length_frame_skips_payload (s : Impl) (seq sysid compid msgid c1 c2 : Nat)
    (hstate : s.parseState = ParseState.WAITING_FOR_STX) :
    (∀ n : Nat,
        (processMessage s ([0xFE, 0x00, seq, sysid, compid, msgid, c1, c2].take n)).1.parseState
          ≠ ParseState.GOT_PAYLOAD)
    ∧ (processMessage s [0xFE, 0x00, seq, sysid, compid, msgid]).1.parseState
        = ParseState.GOT_MSGID
    ∧ (processMessage s [0xFE, 0x00, seq, sysid, compid, msgid, c1]).1.parseState
        = ParseState.GOT_CHECKSUM1
    ∧ completions (processMessage s [0xFE, 0x00, seq, sysid, compid, msgid, c1]).2 = 0
    ∧ (processMessage s [0xFE, 0x00, seq, sysid, compid, msgid, c1, c2]).1.parseState
        = ParseState.WAITING_FOR_STX
    ∧ completions (processMessage s [0xFE, 0x00, seq, sysid, compid, msgid, c1, c2]).2 = 1 := by
  refine ⟨?_, ?_, ?_, ?_, ?_, ?_⟩
  · intro n
    rcases n with _ | _ | _ | _ | _ | _ | _ | _ | n <;>
      simp [processMessage, processByte, hstate, MAV_STX, ParseState.next]
  all_goals
    simp [processMessage, processByte, completions, completions_processCompleteMessage,
      hstate, MAV_STX, ParseState.next]

/-- An instance of C10: the frame `[0xFE, 0, 1, 2, 3, 0, 0x5A, 0xA5]` on a fresh decoder. -/
theorem zero_length_frame_skips_payload_witness :
    (∀ n : Nat,
        (processMessage Impl.init ([0xFE, 0x00, 1, 2, 3, 0, 0x5A, 0xA5].take n)).1.parseState
          ≠ ParseState.GOT_PAYLOAD)
    ∧ (processMessage Impl.init [0xFE, 0x00, 1, 2, 3, 0]).1.parseState
        = ParseState.GOT_MSGID
    ∧ (processMessage Impl.init [0xFE, 0x00, 1, 2, 3, 0, 0x5A]).1.parseState
        = ParseState.GOT_CHECKSUM1
    ∧ completions (processMessage Impl.init [0xFE, 0x00, 1, 2, 3, 0, 0x5A]).2 = 0
    ∧ (processMessage Impl.init [0xFE, 0x00, 1, 2, 3, 0, 0x5A, 0xA5]).1.parseState
        = ParseState.WAITING_FOR_STX
    ∧ completions (processMessage Impl.init [0xFE, 0x00, 1, 2, 3, 0, 0x5A, 0xA5]).2 = 1 :=
  zero_length_frame_skips_payload Impl.init 1 2 3 0 0x5A 0xA5 rfl

theorem payload_run_ends_in_checksum (s : Impl) (payload : List Nat)
    (hstate : s.parseState = ParseState.GOT_PAYLOAD) (hne : payload ≠ [])
    (hlen : s.messageIndex + payload.length = 6 + s.expectedLength) :
    (processMessage s payload).1.parseState = ParseState.GOT_CHECKSUM1
    ∧ (processMessage s payload).2 = [] := by
  induction payload generalizing s with
  | nil => exact absurd rfl hne
  | cons b rest ih =>
    cases rest with
    | nil =>
      simp at hlen
      simp [processMessage, processByte, hstate, hlen]
    | cons b2 rest2 =>
      have hlt : ¬ (6 + s.expectedLength ≤ s.messageIndex + 1) := by
        simp at hlen
        omega
      have hstep : processByte s b
          = ({ s with
                messageBuffer := store s.messageBuffer s.messageIndex b
                messageIndex := s.messageIndex + 1
                parseState := ParseState.GOT_PAYLOAD }, []) := by
        simp [processByte, hstate, hlt]
      have h := ih { s with
                messageBuffer := store s.messageBuffer s.messageIndex b
                messageIndex := s.messageIndex + 1
                parseState := ParseState.GOT_PAYLOAD } rfl (by simp)
                (by simp at hlen ⊢; omega)
      rw [processMessage, hstep]
      exact ⟨h.1, by simp [h.2]⟩

/-- As far as the array goes (`processByte`): for every declared payload length of two or
more, the frame is emitted and the decoder reset when the first trailer byte is consumed,
that is on byte `6 + L + 1` of the `6 + L + 2` bytes of the frame.  This describes the
decoder for the frames whose stores all stay below index 12. -/
theorem long_payload_frame_emitted_on_first_trailer_byte (s : Impl) (seq sysid compid msgid : Nat)
    (p0 p1 : Nat) (rest : List Nat) (c1 : Nat)
    (hstate : s.parseState = ParseState.WAITING_FOR_STX) :
    (processMessage s
        ([0xFE, (p0 :: p1 :: rest).length, seq, sysid, compid, msgid]
          ++ (p0 :: p1 :: rest) ++ [c1])).1.parseState = ParseState.WAITING_FOR_STX
    ∧ completions (processMessage s
        ([0xFE, (p0 :: p1 :: rest).length, seq, sysid, compid, msgid]
          ++ (p0 :: p1 :: rest) ++ [c1])).2 = 1 := by
  have hrun := payload_run_ends_in_checksum
    (processMessage s [0xFE, (p0 :: p1 :: rest).length, seq, sysid, compid, msgid, p0]).1
    (p1 :: rest)
    (by simp [processMessage, processByte, hstate, MAV_STX, ParseState.next])
    (by simp)
    (by simp [processMessage, processByte, hstate, MAV_STX, ParseState.next]; omega)
  have hsplit : [0xFE, (p0 :: p1 :: rest).length, seq, sysid, compid, msgid]
        ++ (p0 :: p1 :: rest) ++ [c1]
      = [0xFE, (p0 :: p1 :: rest).length, seq, sysid, compid, msgid, p0]
        ++ ((p1 :: rest) ++ [c1]) := by simp
  rw [hsplit, processMessage_append_eq, processMessage_append_eq]
  have hpre : (processMessage s
      [0xFE, (p0 :: p1 :: rest).length, seq, sysid, compid, msgid, p0]).2 = [] := by
    simp [processMessage, processByte, hstate, MAV_STX, ParseState.next]
  simp only [hpre, hrun.2, List.nil_append]
  obtain ⟨hrun1, -⟩ := hrun
  generalize (processMessage (processMessage s
      [0xFE, (p0 :: p1 :: rest).length, seq, sysid, compid, msgid, p0]).1 (p1 :: rest)).1 = t
    at hrun1 ⊢
  simp [processMessage, processByte, hrun1, completions, completions_processCompleteMessage]

/-- With declared payload length `0` or `1` both trailer bytes are consumed: nothing is
emitted before the last byte of the frame, and the last byte emits it once and resets the
decoder. -/
theorem short_payload_frame_emitted_on_last_byte (s : Impl)
    (seq sysid compid msgid p c1 c2 : Nat)
    (hstate : s.parseState = ParseState.WAITING_FOR_STX) :
    completions (processMessage s [0xFE, 0, seq, sysid, compid, msgid, c1]).2 = 0
    ∧ completions (processMessage s [0xFE, 0, seq, sysid, compid, msgid, c1, c2]).2 = 1
    ∧ (processMessage s [0xFE, 0, seq, sysid, compid, msgid, c1, c2]).1.parseState
        = ParseState.WAITING_FOR_STX
    ∧ completions (processMessage s [0xFE, 1, seq, sysid, compid, msgid, p, c1]).2 = 0
    ∧ completions (processMessage s [0xFE, 1, seq, sysid, compid, msgid, p, c1, c2]).2 = 1
    ∧ (processMessage s [0xFE, 1, seq, sysid, compid, msgid, p, c1, c2]).1.parseState
        = ParseState.WAITING_FOR_STX := by
  refine ⟨?_, ?_, ?_, ?_, ?_, ?_⟩ <;>
    simp [processMessage, processByte, completions, completions_processCompleteMessage,
      hstate, MAV_STX, ParseState.next]

/-- C2, at the frame `[0xFE, 2, 1, 2, 3, 0, 0xAA, 0xBB, 0x10, 0x20]` (declared payload length
2, ten bytes): the decoder emits the frame and resets to `WAITING_FOR_STX` on the ninth byte;
the tenth byte is consumed in `WAITING_FOR_STX` and emits nothing. -/
theorem ten_byte_frame_emitted_on_ninth_byte :
    completions (processMessage Impl.init [0xFE, 2, 1, 2, 3, 0, 0xAA, 0xBB]).2 = 0
    ∧ completions (processMessage Impl.init [0xFE, 2, 1, 2, 3, 0, 0xAA, 0xBB, 0x10]).2 = 1
    ∧ (processMessage Impl.init [0xFE, 2, 1, 2, 3, 0, 0xAA, 0xBB, 0x10]).1.parseState
        = ParseState.WAITING_FOR_STX
    ∧ (processByte (processMessage Impl.init [0xFE, 2, 1, 2, 3, 0, 0xAA, 0xBB, 0x10]).1 0x20).2
        = []
    ∧ (processMessage Impl.init [0xFE, 2, 1, 2, 3, 0, 0xAA, 0xBB, 0x10, 0xFE]).1.parseState
        = ParseState.GOT_STX := by
  decide

end MavlinkCore

/-! ## Properties of the ring buffer -/

namespace TelemetryRingBuffer

theorem pushAll_snoc (rb : TelemetryRingBuffer) (msgs : List TelemetryMessage)
    (msg : TelemetryMessage) :
    pushAll rb (msgs ++ [msg]) = push (pushAll rb msgs) msg := by
  simp [pushAll, List.foldl_append]

theorem pushAll_cap (rb : TelemetryRingBuffer) (msgs : List TelemetryMessage) :
    (pushAll rb msgs).cap_ = rb.cap_ := by
  induction msgs using List.reverseRecOn with
  | nil => rfl
  | append_singleton l a ih => rw [pushAll_snoc]; simpa [push] using ih

theorem pushAll_buf_length (rb : TelemetryRingBuffer) (msgs : List TelemetryMessage) :
    (pushAll rb msgs).buf_.length = rb.buf_.length := by
  induction msgs using List.reverseRecOn with
  | nil => rfl
  | append_singleton l a ih => rw [pushAll_snoc]; simpa [push] using ih

theorem pushAll_count (C : Nat) (msgs : List TelemetryMessage) :
    (pushAll (new C) msgs).count_ = min msgs.length C := by
  induction msgs using List.reverseRecOn with
  | nil => simp [pushAll, new]
  | append_singleton l a ih =>
    rw [pushAll_snoc]
    have hcap : (pushAll (new C) l).cap_ = C := by rw [pushAll_cap]; rfl
    simp only [push, hcap, ih, List.length_append, List.length_singleton]
    split <;> omega

theorem pushAll_head (C : Nat) (msgs : List TelemetryMessage) :
    (pushAll (new C) msgs).head_ = msgs.length % SIZE_MOD := by
  induction msgs using List.reverseRecOn with
  | nil => simp [pushAll, new]
  | append_singleton l a ih =>
    rw [pushAll_snoc]
    simp only [push, ih, List.length_append, List.length_singleton]
    exact Nat.mod_add_mod _ _ _

theorem mod_ne_of_lt_cap (C p i : Nat) (hi : 0 < i) (hiC : i < C) (hip : i ≤ p) :
    p % C ≠ (p - i) % C := by
  intro h
  have h0 : (p - (p - i)) % C = 0 := Nat.sub_mod_eq_zero_of_mod_eq h
  have h1 : p - (p - i) = i := by omega
  rw [h1, Nat.mod_eq_of_lt hiC] at h0
  omega

/-- Slot contents after a run of pushes whose number stays below the width of the cursor:
the `i`-th most recent message sits in slot `(p - 1 - i) % C`, for `i < min p C`. -/
theorem pushAll_slot (C : Nat) (msgs : List TelemetryMessage) (hC : 0 < C)
    (hw : msgs.length < SIZE_MOD) (i : Nat) (hi : i < min msgs.length C) :
    (pushAll (new C) msgs).buf_[(msgs.length - 1 - i) % C]? = msgs[msgs.length - 1 - i]? := by
  induction msgs using List.reverseRecOn generalizing i with
  | nil => simp at hi
  | append_singleton l a ih =>
    rw [pushAll_snoc]
    have hcap : (pushAll (new C) l).cap_ = C := by rw [pushAll_cap]; rfl
    have hlen : (pushAll (new C) l).buf_.length = C := by
      rw [pushAll_buf_length]; simp [new]
    have hhead : (pushAll (new C) l).head_ = l.length := by
      rw [pushAll_head]
      apply Nat.mod_eq_of_lt
      simp at hw
      omega
    simp only [List.length_append, List.length_singleton] at hi hw ⊢
    simp only [push, hcap, hhead]
    rcases Nat.eq_zero_or_pos i with h0 | hpos
    · subst h0
      have hidx : l.length + 1 - 1 - 0 = l.length := by omega
      rw [hidx, List.getElem?_set_self (by rw [hlen]; exact Nat.mod_lt _ hC),
        List.getElem?_concat_length]
    · have hidx : l.length + 1 - 1 - i = l.length - i := by omega
      have hne : l.length % C ≠ (l.length - i) % C :=
        mod_ne_of_lt_cap C l.length i hpos (by omega) (by omega)
      rw [hidx, List.getElem?_set_ne hne]
      have hprev := ih (by omega) (i - 1) (by omega)
      have hidx2 : l.length - 1 - (i - 1) = l.length - i := by omega
      rw [hidx2] at hprev
      rw [hprev, List.getElem?_append_left (by omega)]

theorem cursorBack_of_lt (h i : Nat) (hi : i < h) (hh : h < SIZE_MOD) :
    cursorBack h i = h - 1 - i := by
  unfold cursorBack
  have hmod : (((h : Int) - 1 - (i : Int)) % (SIZE_MOD : Int)) = (h : Int) - 1 - (i : Int) := by
    apply Int.emod_eq_of_lt
    · omega
    · have : (h : Int) < (SIZE_MOD : Int) := by exact_mod_cast hh
      omega
  rw [hmod]
  omega

/-- What `latest` returns after any run of pushes on a new buffer, while the number of pushes
is below the width of the cursor: the pushed messages, most recent first, cut to
`min maxCount C` entries. -/
theorem latest_pushAll (C : Nat) (msgs : List TelemetryMessage) (n : Nat) (hC : 0 < C)
    (hw : msgs.length < SIZE_MOD) :
    latest (pushAll (new C) msgs) n = msgs.reverse.take (min n C) := by
  have hcap : (pushAll (new C) msgs).cap_ = C := by rw [pushAll_cap]; rfl
  have hhead : (pushAll (new C) msgs).head_ = msgs.length := by
    rw [pushAll_head]; exact Nat.mod_eq_of_lt hw
  unfold latest
  simp only [pushAll_count, hcap, hhead]
  split
  · rename_i h0
    have : msgs.length = 0 := by omega
    have hnil : msgs = [] := List.length_eq_zero.mp this
    simp [hnil]
  · apply List.ext_getElem?
    intro i
    by_cases hi : i < min n (min msgs.length C)
    · have hslot := pushAll_slot C msgs hC hw i (by omega)
      rw [List.getElem?_map, List.getElem?_range hi, List.getElem?_take_of_lt (by omega),
        List.getElem?_reverse (by omega)]
      simp only [Option.map_some', List.getD_eq_getElem?_getD]
      rw [cursorBack_of_lt _ _ (by omega) hw, hslot]
      have hlt : msgs.length - 1 - i < msgs.length := by omega
      rw [List.getElem?_eq_getElem hlt]
      rfl
    · rw [List.getElem?_eq_none (by simp; omega), List.getElem?_eq_none (by simp; omega)]

theorem latest_length (rb : TelemetryRingBuffer) (n : Nat) :
    (latest rb n).length = min n rb.count_ := by
  unfold latest
  simp only []
  split
  · rename_i h0
    simp [h0]
  · simp

/-- C4: after `k ≤ C` pushes into a new buffer of capacity `C > 0`, `latest n` returns the
`min n k` most recent messages in reverse push order; when the pushed sequence numbers are
strictly increasing, the returned ones are strictly decreasing. -/
theorem latest_within_capacity (C : Nat) (msgs : List TelemetryMessage) (n : Nat)
    (hC : 0 < C) (hCw : C < SIZE_MOD) (hk : msgs.length ≤ C) :
    latest (pushAll (new C) msgs) n = msgs.reverse.take n
    ∧ (latest (pushAll (new C) msgs) n).length = min n msgs.length
    ∧ (List.Pairwise (fun a b => a < b) (msgs.map fun m => m.seq) →
        List.Pairwise (fun a b => a > b)
          ((latest (pushAll (new C) msgs) n).map fun m => m.seq)) := by
  have hmain : latest (pushAll (new C) msgs) n = msgs.reverse.take n := by
    rw [latest_pushAll C msgs n hC (by omega)]
    by_cases hn : n ≤ C
    · rw [Nat.min_eq_left hn]
    · rw [Nat.min_eq_right (by omega), List.take_of_length_le (by simp; omega),
        List.take_of_length_le (by simp; omega)]
  refine ⟨hmain, ?_, ?_⟩
  · rw [hmain]; simp
  · intro hinc
    rw [hmain, List.map_take, List.map_reverse]
    exact List.Pairwise.sublist (List.take_sublist _ _) (List.pairwise_reverse.mpr hinc)

/-- The spec's instance of C4: capacity 10, pushes with sequence numbers 1, 2, 3, and
`latest 2` returns the sequence numbers `[3, 2]`. -/
theorem latest_within_capacity_witness :
    (latest (pushAll (new 10)
        [⟨.Heartbeat, 0, 1, 0, 0, 0⟩, ⟨.Attitude, 0, 2, 0, 0, 0⟩, ⟨.GPS, 0, 3, 0, 0, 0⟩]) 2
      = ([⟨.Heartbeat, 0, 1, 0, 0, 0⟩, ⟨.Attitude, 0, 2, 0, 0, 0⟩,
            ⟨.GPS, 0, 3, 0, 0, 0⟩] : List TelemetryMessage).reverse.take 2
    ∧ (latest (pushAll (new 10)
        [⟨.Heartbeat, 0, 1, 0, 0, 0⟩, ⟨.Attitude, 0, 2, 0, 0, 0⟩,
          ⟨.GPS, 0, 3, 0, 0, 0⟩]) 2).length
      = min 2 ([⟨.Heartbeat, 0, 1, 0, 0, 0⟩, ⟨.Attitude, 0, 2, 0, 0, 0⟩,
            ⟨.GPS, 0, 3, 0, 0, 0⟩] : List TelemetryMessage).length
    ∧ (List.Pairwise (fun a b => a < b)
          (([⟨.Heartbeat, 0, 1, 0, 0, 0⟩, ⟨.Attitude, 0, 2, 0, 0, 0⟩,
            ⟨.GPS, 0, 3, 0, 0, 0⟩] : List TelemetryMessage).map fun m => m.seq) →
        List.Pairwise (fun a b => a > b)
          ((latest (pushAll (new 10)
            [⟨.Heartbeat, 0, 1, 0, 0, 0⟩, ⟨.Attitude, 0, 2, 0, 0, 0⟩,
              ⟨.GPS, 0, 3, 0, 0, 0⟩]) 2).map fun m => m.seq)))
    ∧ (latest (pushAll (new 10)
        [⟨.Heartbeat, 0, 1, 0, 0, 0⟩, ⟨.Attitude, 0, 2, 0, 0, 0⟩,
          ⟨.GPS, 0, 3, 0, 0, 0⟩]) 2).map (fun m => m.seq) = [3, 2] :=
  ⟨latest_within_capacity 10
      [⟨.Heartbeat, 0, 1, 0, 0, 0⟩, ⟨.Attitude, 0, 2, 0, 0, 0⟩, ⟨.GPS, 0, 3, 0, 0, 0⟩] 2
      (by decide) (by decide) (by decide),
    by decide⟩

/-- C5: after `C + m` pushes (`m > 0`, `C + m` below the width of the cursor) into a new
buffer of capacity `C > 0`, `latest C` returns exactly the last `C` pushed messages, most
recent first; with pairwise distinct sequence numbers, no sequence number is returned twice
and none of the `m` oldest ones is returned. -/
theorem latest_after_overwrite (C m : Nat) (msgs : List TelemetryMessage)
    (hC : 0 < C) (hm : 0 < m) (hlen : msgs.length = C + m) (hw : C + m < SIZE_MOD) :
    latest (pushAll (new C) msgs) C = (msgs.drop m).reverse
    ∧ (latest (pushAll (new C) msgs) C).length = C
    ∧ (∀ i, i < C → (latest (pushAll (new C) msgs) C)[i]? = msgs[C + m - 1 - i]?)
    ∧ ((msgs.map fun x => x.seq).Nodup →
        ((latest (pushAll (new C) msgs) C).map fun x => x.seq).Nodup
        ∧ ∀ q ∈ (msgs.take m).map (fun x => x.seq),
            q ∉ (latest (pushAll (new C) msgs) C).map fun x => x.seq) := by
  have hmain : latest (pushAll (new C) msgs) C = (msgs.drop m).reverse := by
    rw [latest_pushAll C msgs C hC (by omega), Nat.min_self]
    conv_lhs => rw [← List.take_append_drop m msgs, List.reverse_append]
    exact List.take_left' (by simp; omega)
  refine ⟨hmain, ?_, ?_, ?_⟩
  · rw [hmain]; simp; omega
  · intro i hi
    rw [hmain, List.getElem?_reverse (by simp; omega)]
    simp only [List.length_drop, List.getElem?_drop]
    congr 1
    omega
  · intro hnd
    rw [hmain, List.map_reverse, List.map_drop]
    rw [← List.take_append_drop m (msgs.map fun x => x.seq)] at hnd
    obtain ⟨-, hdrop, hdisj⟩ := List.nodup_append.mp hnd
    refine ⟨List.nodup_reverse.mpr hdrop, ?_⟩
    intro q hq hq2
    rw [List.map_take] at hq
    exact hdisj hq (List.mem_reverse.mp hq2)

/-- An instance of C5: capacity 2, three pushes with sequence numbers 1, 2, 3. -/
theorem latest_after_overwrite_witness :
    latest (pushAll (new 2)
        [⟨.Heartbeat, 0, 1, 0, 0, 0⟩, ⟨.Attitude, 0, 2, 0, 0, 0⟩, ⟨.GPS, 0, 3, 0, 0, 0⟩]) 2
      = [⟨.GPS, 0, 3, 0, 0, 0⟩, ⟨.Attitude, 0, 2, 0, 0, 0⟩]
    ∧ (latest (pushAll (new 2)
        [⟨.Heartbeat, 0, 1, 0, 0, 0⟩, ⟨.Attitude, 0, 2, 0, 0, 0⟩,
          ⟨.GPS, 0, 3, 0, 0, 0⟩]) 2).map (fun x => x.seq) = [3, 2] :=
  ⟨(latest_after_overwrite 2 1
      [⟨.Heartbeat, 0, 1, 0, 0, 0⟩, ⟨.Attitude, 0, 2, 0, 0, 0⟩, ⟨.GPS, 0, 3, 0, 0, 0⟩]
      (by decide) (by decide) (by decide) (by decide)).1,
    by decide⟩

/-- C6: after any number `p` of pushes into a new buffer of capacity `C > 0`, `size` is
`min p C` and so at most `C`, the backing array still has `C` slots, and `latest n` returns
`min n size` messages. -/
theorem size_is_min_of_pushes_and_capacity (C : Nat) (msgs : List TelemetryMessage) (n : Nat)
    (hC : 0 < C) :
    size (pushAll (new C) msgs) = min msgs.length C
    ∧ size (pushAll (new C) msgs) ≤ C
    ∧ (pushAll (new C) msgs).buf_.length = C
    ∧ (pushAll (new C) msgs).cap_ = C
    ∧ (latest (pushAll (new C) msgs) n).length = min n (size (pushAll (new C) msgs)) := by
  have hcount := pushAll_count C msgs
  refine ⟨hcount, ?_, ?_, ?_, ?_⟩
  · simp only [size, hcount]; omega
  · rw [pushAll_buf_length]; simp [new]
  · rw [pushAll_cap]; rfl
  · rw [latest_length]; rfl

/-- An instance of C6: capacity 2, three pushes, `latest 5`. -/
theorem size_is_min_of_pushes_and_capacity_witness :
    size (pushAll (new 2)
        [⟨.Heartbeat, 0, 1, 0, 0, 0⟩, ⟨.Attitude, 0, 2, 0, 0, 0⟩, ⟨.GPS, 0, 3, 0, 0, 0⟩]) = 2
    ∧ (latest (pushAll (new 2)
        [⟨.Heartbeat, 0, 1, 0, 0, 0⟩, ⟨.Attitude, 0, 2, 0, 0, 0⟩,
          ⟨.GPS, 0, 3, 0, 0, 0⟩]) 5).length = 2 :=
  ⟨(size_is_min_of_pushes_and_capacity 2
      [⟨.Heartbeat, 0, 1, 0, 0, 0⟩, ⟨.Attitude, 0, 2, 0, 0, 0⟩, ⟨.GPS, 0, 3, 0, 0, 0⟩] 5
      (by decide)).1,
    by decide⟩

end TelemetryRingBuffer

/-! ## Properties of the statistics counter -/

namespace StatsCalculator

end StatsCalculator

/-! ## Properties of the telemetry engine -/

namespace TelemetryEngine

/-- C11: over the lifecycle state (running flag, start timestamp, thread handle, live
threads), `start` on a running engine and `stop` on a stopped engine return the state as it
is, so no second thread is created; `start; start` equals `start`, `stop; stop` equals
`stop`; and `start; stop; start; stop` on a new engine ends with the running flag false, no
thread owned, no live thread, and a loop pass that produces nothing. -/
theorem start_stop_idempotent (e : TelemetryEngine) (t1 t2 : Nat) (inp : LoopInput) :
    (e.running_ = true → start e t1 = some e)
    ∧ (e.running_ = false → stop e = e)
    ∧ (start e t1).bind (fun e1 => start e1 t2) = start e t1
    ∧ stop (stop e) = stop e
    ∧ (∀ e1, start new t1 = some e1 → e1.liveThreads = 1 ∧ start e1 t2 = some e1)
    ∧ (((start new t1).map stop).bind (fun e2 => start e2 t2)).map stop
        = some { new with startTs_ := t2 }
    ∧ ({ new with startTs_ := t2 } : TelemetryEngine).running_ = false
    ∧ ({ new with startTs_ := t2 } : TelemetryEngine).th_ = false
    ∧ ({ new with startTs_ := t2 } : TelemetryEngine).liveThreads = 0
    ∧ loopPass { new with startTs_ := t2 } inp = ({ new with startTs_ := t2 }, []) := by
  refine ⟨?_, ?_, ?_, ?_, ?_, ?_, rfl, rfl, rfl, ?_⟩
  · intro h
    simp [start, h]
  · intro h
    simp [stop, h]
  · unfold start
    by_cases hr : e.running_ = true
    · simp [hr]
    · by_cases ht : e.th_ = true
      · simp [hr, ht]
      · simp [hr, ht]
  · unfold stop
    by_cases hr : e.running_ = true
    · by_cases ht : e.th_ = true
      · simp [hr, ht]
      · simp [hr, ht]
    · simp [hr]
  · intro e1 h
    simp [start, new] at h
    subst h
    simp [start]
  · simp [start, stop, new]
  · simp [loopPass, new]

/-- What a run of steps does to an engine whose handle owns a thread exactly when the running
flag is set: the run does not end the process, the handle and flag stay in step, the
synthesized messages carry consecutive sequence numbers (modulo `2 ^ 32`) with type
`seq % 4`, and the buffer and the counter received exactly these messages, in order. -/
theorem exec_produces (steps : List EngineStep) (e : TelemetryEngine)
    (hth : e.th_ = e.running_) (hseq : e.seq_ < UINT32_MOD) :
    ∃ e2 made, exec e steps = some (e2, made)
      ∧ e2.th_ = e2.running_
      ∧ e2.seq_ = (e.seq_ + made.length) % UINT32_MOD
      ∧ (∀ j m, made[j]? = some m →
          m.seq = (e.seq_ + j + 1) % UINT32_MOD ∧ m.type = MessageType.fromUInt (m.seq % 4))
      ∧ e2.buffer_ = TelemetryRingBuffer.pushAll e.buffer_ made
      ∧ e2.stats_ = StatsCalculator.recordAll e.stats_ (made.map fun m => m.type.toUInt8) := by
  induction steps generalizing e with
  | nil =>
    refine ⟨e, [], rfl, hth, ?_, ?_, rfl, rfl⟩
    · simp [Nat.mod_eq_of_lt hseq]
    · intro j m h
      simp at h
  | cons step rest ih =>
    cases step with
    | start now =>
      by_cases hr : e.running_ = true
      · have hs : start e now = some e := by simp [start, hr]
        obtain ⟨e2, made, hex, h1, h2, h3, h4, h5⟩ := ih e hth hseq
        exact ⟨e2, made, by simp [exec, hs, hex], h1, h2, h3, h4, h5⟩
      · have ht : e.th_ = false := by
          rw [hth]; simpa using hr
        have hr2 : e.running_ = false := by simpa using hr
        have hs : start e now
            = some { e with running_ := true, startTs_ := now, th_ := true,
                            liveThreads := e.liveThreads + 1 } := by
          simp [start, hr2, ht]
        obtain ⟨e2, made, hex, h1, h2, h3, h4, h5⟩ :=
          ih { e with running_ := true, startTs_ := now, th_ := true,
                      liveThreads := e.liveThreads + 1 } rfl hseq
        exact ⟨e2, made, by simp [exec, hs, hex], h1, h2, h3, h4, h5⟩
    | stop =>
      have hst : (stop e).th_ = (stop e).running_ ∧ (stop e).seq_ = e.seq_
          ∧ (stop e).buffer_ = e.buffer_ ∧ (stop e).stats_ = e.stats_ := by
        unfold stop
        by_cases hr : e.running_ = true
        · have ht : e.th_ = true := by rw [hth]; exact hr
          simp [hr, ht]
        · have hr2 : e.running_ = false := by simpa using hr
          simp [hr2, hth]
      obtain ⟨e2, made, hex, h1, h2, h3, h4, h5⟩ := ih (stop e) hst.1 (by rw [hst.2.1]; exact hseq)
      rw [hst.2.1] at h2 h3
      rw [hst.2.2.1] at h4
      rw [hst.2.2.2] at h5
      exact ⟨e2, made, by simp [exec, hex], h1, h2, h3, h4, h5⟩
    | pass inp =>
      by_cases hr : e.running_ = true
      · have ht : e.th_ = true := by rw [hth]; exact hr
        have hlp : loopPass e inp = ((iteration e inp).1, [(iteration e inp).2]) := by
          simp [loopPass, hr, ht]
        have hlt : (e.seq_ + 1) % UINT32_MOD < UINT32_MOD :=
          Nat.mod_lt _ (by decide)
        obtain ⟨e2, made, hex, h1, h2, h3, h4, h5⟩ :=
          ih (iteration e inp).1 (by simpa [iteration] using hth) (by simpa [iteration] using hlt)
        refine ⟨e2, (iteration e inp).2 :: made, by simp [exec, hlp, hex], h1, ?_, ?_, ?_, ?_⟩
        · rw [h2]
          simp only [iteration, List.length_cons]
          rw [Nat.mod_add_mod]
          congr 1
          omega
        · intro j m hj
          cases j with
          | zero =>
            simp only [List.getElem?_cons_zero, Option.some.injEq] at hj
            subst hj
            simp [iteration]
          | succ j =>
            simp only [List.getElem?_cons_succ] at hj
            obtain ⟨hs1, hs2⟩ := h3 j m hj
            refine ⟨?_, hs2⟩
            rw [hs1]
            simp only [iteration]
            rw [Nat.add_assoc, Nat.mod_add_mod]
            congr 1
            omega
        · rw [h4]
          simp [iteration, TelemetryRingBuffer.pushAll]
        · rw [h5]
          simp [iteration, StatsCalculator.recordAll]
      · have hr2 : e.running_ = false := by simpa using hr
        have hlp : loopPass e inp = (e, []) := by
          simp [loopPass, hr2]
        obtain ⟨e2, made, hex, h1, h2, h3, h4, h5⟩ := ih e hth hseq
        exact ⟨e2, made, by simp [exec, hlp, hex], h1, h2, h3, h4, h5⟩

theorem latestBatchJson_length (e : TelemetryEngine) (made : List TelemetryMessage)
    (hbuf : e.buffer_ = TelemetryRingBuffer.pushAll (TelemetryRingBuffer.new 10000) made)
    (maxCount : Int) :
    (latestBatchJson e maxCount).length
      = min (Int.toNat (maxCount % (SIZE_MOD : Int))) (min made.length 10000) := by
  unfold latestBatchJson
  rw [TelemetryRingBuffer.latest_length, hbuf, TelemetryRingBuffer.pushAll_count]

/-- For a negative `int` argument the converted count is `2 ^ 64 + maxCount`, so the batch
holds every retrievable sample: `min(samplesProduced, capacity)` of them. -/
theorem latestBatchJson_negative_returns_all (steps : List EngineStep) (maxCount : Int)
    (hneg : maxCount < 0) (hint : -(2 ^ 31) ≤ maxCount) :
    ∃ e made, exec new steps = some (e, made)
      ∧ (latestBatchJson e maxCount).length = min made.length 10000 := by
  obtain ⟨e, made, hex, -, -, -, hbuf, -⟩ := exec_produces steps new rfl (by decide)
  refine ⟨e, made, hex, ?_⟩
  rw [latestBatchJson_length e made hbuf]
  simp only [SIZE_MOD]
  norm_num
  omega

/-- C12 as stated fails at `maxCount = -1` after three samples were produced: the batch
holds three samples, which is not at most `min(-1, 3, 10000)`. -/
theorem negative_maxCount_returns_whole_buffer :
    (exec new [EngineStep.start 0, EngineStep.pass ⟨1, 0, 0, 0⟩, EngineStep.pass ⟨2, 0, 0, 0⟩,
        EngineStep.pass ⟨3, 0, 0, 0⟩]).map
      (fun r => (r.2.length, (latestBatchJson r.1 (-1)).length)) = some (3, 3)
    ∧ ¬ ((3 : Int) ≤ min (-1) (min 3 10000)) := by
  constructor
  · decide
  · decide

/-- C12, amended: for every run of the engine and every `maxCount ≥ 0`, the batch returned by
`latestBatchJson maxCount` holds at most `min(maxCount, samplesProduced, capacity)` samples,
the capacity being 10000. -/
theorem latestBatchJson_length_le (steps : List EngineStep) (maxCount : Int)
    (hnonneg : 0 ≤ maxCount) :
    ∃ e made, exec new steps = some (e, made)
      ∧ ((latestBatchJson e maxCount).length : Int)
          ≤ min maxCount (min (made.length : Int) 10000) := by
  obtain ⟨e, made, hex, -, -, -, hbuf, -⟩ := exec_produces steps new rfl (by decide)
  refine ⟨e, made, hex, ?_⟩
  rw [latestBatchJson_length e made hbuf]
  simp only [SIZE_MOD]
  norm_num
  omega

/-- An instance of C12: three samples produced, `maxCount = 2`; the batch holds the two most
recent samples. -/
theorem latestBatchJson_length_le_witness :
    (∃ e made, exec new [EngineStep.start 0, EngineStep.pass ⟨1, 0, 0, 0⟩,
          EngineStep.pass ⟨2, 0, 0, 0⟩, EngineStep.pass ⟨3, 0, 0, 0⟩] = some (e, made)
      ∧ ((latestBatchJson e 2).length : Int) ≤ min 2 (min (made.length : Int) 10000))
    ∧ (exec new [EngineStep.start 0, EngineStep.pass ⟨1, 0, 0, 0⟩,
          EngineStep.pass ⟨2, 0, 0, 0⟩, EngineStep.pass ⟨3, 0, 0, 0⟩]).map
        (fun r => (latestBatchJson r.1 2).map fun m => m.seq) = some [3, 2] :=
  ⟨latestBatchJson_length_le [EngineStep.start 0, EngineStep.pass ⟨1, 0, 0, 0⟩,
      EngineStep.pass ⟨2, 0, 0, 0⟩, EngineStep.pass ⟨3, 0, 0, 0⟩] 2 (by decide),
    by decide⟩

end TelemetryEngine

/-! ## Properties of the decoder: trailer, index range, stores -/

namespace MavlinkCore

theorem load_store_ne (buffer : List Nat) (i j byte : Nat) (h : i ≠ j) :
    load (store buffer i byte) j = load buffer j := by
  simp [load, store, List.getElem?_set_ne h]

/-- The dispatcher reads the vehicle state, the callback and the cells 3, 4 and 5 only. -/
theorem processCompleteMessage_congr (s t : Impl)
    (hvs : s.vehicleState = t.vehicleState) (hcb : s.stateCallback = t.stateCallback)
    (h3 : load s.messageBuffer 3 = load t.messageBuffer 3)
    (h4 : load s.messageBuffer 4 = load t.messageBuffer 4)
    (h5 : load s.messageBuffer 5 = load t.messageBuffer 5) :
    (processCompleteMessage s).1.vehicleState = (processCompleteMessage t).1.vehicleState
    ∧ notifications (processCompleteMessage s).2 = notifications (processCompleteMessage t).2 := by
  unfold processCompleteMessage updateState
  simp only [h3, h4, h5, hvs, hcb]
  split <;> simp [hvs]

theorem payload_run_keeps_header (s : Impl) (payload : List Nat)
    (hstate : s.parseState = ParseState.GOT_PAYLOAD) (hne : payload ≠ [])
    (hlen : s.messageIndex + payload.length = 6 + s.expectedLength) (h6 : 6 ≤ s.messageIndex) :
    6 ≤ (processMessage s payload).1.messageIndex
    ∧ (processMessage s payload).1.vehicleState = s.vehicleState
    ∧ (processMessage s payload).1.stateCallback = s.stateCallback
    ∧ load (processMessage s payload).1.messageBuffer 3 = load s.messageBuffer 3
    ∧ load (processMessage s payload).1.messageBuffer 4 = load s.messageBuffer 4
    ∧ load (processMessage s payload).1.messageBuffer 5 = load s.messageBuffer 5 := by
  induction payload generalizing s with
  | nil => exact absurd rfl hne
  | cons b rest ih =>
    cases rest with
    | nil =>
      simp [processMessage, processByte, hstate]
      refine ⟨by omega, ?_, ?_, ?_⟩ <;> exact load_store_ne _ _ _ _ (by omega)
    | cons b2 rest2 =>
      have hlt : ¬ (6 + s.expectedLength ≤ s.messageIndex + 1) := by
        simp at hlen
        omega
      have hstep : processByte s b
          = ({ s with
                messageBuffer := store s.messageBuffer s.messageIndex b
                messageIndex := s.messageIndex + 1
                parseState := ParseState.GOT_PAYLOAD }, []) := by
        simp [processByte, hstate, hlt]
      obtain ⟨i1, i2, i3, i4, i5, i6⟩ := ih { s with
                messageBuffer := store s.messageBuffer s.messageIndex b
                messageIndex := s.messageIndex + 1
                parseState := ParseState.GOT_PAYLOAD } rfl (by simp)
                (by simp at hlen ⊢; omega) (by simp; omega)
      rw [processMessage, hstep]
      refine ⟨i1, i2, i3, ?_, ?_, ?_⟩
      · rw [i4]; exact load_store_ne _ _ _ _ (by omega)
      · rw [i5]; exact load_store_ne _ _ _ _ (by omega)
      · rw [i6]; exact load_store_ne _ _ _ _ (by omega)

/-- The state reached after the header and the payload of a frame, from `WAITING_FOR_STX`:
nothing was emitted, the write index is at least 6, and the decoder is about to read the
trailer (`GOT_MSGID` with no payload, `GOT_PAYLOAD` with the payload complete, or
`GOT_CHECKSUM1`). -/
theorem frame_body_reaches_trailer (s : Impl) (seq sysid compid msgid : Nat)
    (payload : List Nat) (hstate : s.parseState = ParseState.WAITING_FOR_STX) :
    (processMessage s ([0xFE, payload.length, seq, sysid, compid, msgid] ++ payload)).2 = []
    ∧ 6 ≤ (processMessage s
        ([0xFE, payload.length, seq, sysid, compid, msgid] ++ payload)).1.messageIndex
    ∧ (((processMessage s
          ([0xFE, payload.length, seq, sysid, compid, msgid] ++ payload)).1.parseState
            = ParseState.GOT_MSGID
        ∧ (processMessage s
          ([0xFE, payload.length, seq, sysid, compid, msgid] ++ payload)).1.expectedLength = 0)
      ∨ ((processMessage s
          ([0xFE, payload.length, seq, sysid, compid, msgid] ++ payload)).1.parseState
            = ParseState.GOT_PAYLOAD
        ∧ 6 + (processMessage s
            ([0xFE, payload.length, seq, sysid, compid, msgid] ++ payload)).1.expectedLength
          ≤ (processMessage s
            ([0xFE, payload.length, seq, sysid, compid, msgid] ++ payload)).1.messageIndex + 1)
      ∨ (processMessage s
          ([0xFE, payload.length, seq, sysid, compid, msgid] ++ payload)).1.parseState
            = ParseState.GOT_CHECKSUM1) := by
  match payload with
  | [] =>
    simp [processMessage, processByte, hstate, MAV_STX, ParseState.next]
  | [p0] =>
    simp [processMessage, processByte, hstate, MAV_STX, ParseState.next]
  | p0 :: p1 :: rest =>
    have hsplit : [0xFE, (p0 :: p1 :: rest).length, seq, sysid, compid, msgid]
          ++ (p0 :: p1 :: rest)
        = [0xFE, (p0 :: p1 :: rest).length, seq, sysid, compid, msgid, p0]
          ++ (p1 :: rest) := by simp
    have hpre : (processMessage s
        [0xFE, (p0 :: p1 :: rest).length, seq, sysid, compid, msgid, p0]).2 = [] := by
      simp [processMessage, processByte, hstate, MAV_STX, ParseState.next]
    have hrun := payload_run_ends_in_checksum
      (processMessage s [0xFE, (p0 :: p1 :: rest).length, seq, sysid, compid, msgid, p0]).1
      (p1 :: rest)
      (by simp [processMessage, processByte, hstate, MAV_STX, ParseState.next])
      (by simp)
      (by simp [processMessage, processByte, hstate, MAV_STX, ParseState.next]; omega)
    have hkeep := payload_run_keeps_header
      (processMessage s [0xFE, (p0 :: p1 :: rest).length, seq, sysid, compid, msgid, p0]).1
      (p1 :: rest)
      (by simp [processMessage, processByte, hstate, MAV_STX, ParseState.next])
      (by simp)
      (by simp [processMessage, processByte, hstate, MAV_STX, ParseState.next]; omega)
      (by simp [processMessage, processByte, hstate, MAV_STX, ParseState.next])
    rw [hsplit, processMessage_append_eq]
    refine ⟨?_, hkeep.1, Or.inr (Or.inr hrun.1)⟩
    simp only [hpre, hrun.2, List.append_nil]

/-- From a state about to read the trailer, any two trailer bytes emit the frame exactly
once, and the vehicle state and the callback invocations are those of dispatching the buffer
as it stands: the trailer bytes play no part. -/
theorem trailer_bytes_are_ignored (t : Impl) (c1 c2 : Nat) (h6 : 6 ≤ t.messageIndex)
    (hready : (t.parseState = ParseState.GOT_MSGID ∧ t.expectedLength = 0)
      ∨ (t.parseState = ParseState.GOT_PAYLOAD ∧ 6 + t.expectedLength ≤ t.messageIndex + 1)
      ∨ t.parseState = ParseState.GOT_CHECKSUM1) :
    completions (processMessage t [c1, c2]).2 = 1
    ∧ (processMessage t [c1, c2]).1.vehicleState = (processCompleteMessage t).1.vehicleState
    ∧ notifications (processMessage t [c1, c2]).2
        = notifications (processCompleteMessage t).2 := by
  rcases hready with ⟨hp, hl⟩ | ⟨hp, hl⟩ | hp
  · simp [processMessage, processByte, hp, hl, ParseState.next, completions,
      completions_processCompleteMessage, notifications]
    refine processCompleteMessage_congr _ _ rfl rfl ?_ ?_ ?_ <;>
      (simp only []; rw [load_store_ne _ _ _ _ (by omega), load_store_ne _ _ _ _ (by omega)])
  · simp [processMessage, processByte, hp, hl, completions,
      completions_processCompleteMessage, notifications]
    refine processCompleteMessage_congr _ _ rfl rfl ?_ ?_ ?_ <;>
      (simp only []; rw [load_store_ne _ _ _ _ (by omega), load_store_ne _ _ _ _ (by omega)])
  · by_cases hstx : c2 = MAV_STX
    · simp [processMessage, processByte, hp, hstx, completions,
        completions_processCompleteMessage, notifications]
      refine processCompleteMessage_congr _ _ rfl rfl ?_ ?_ ?_ <;>
        (simp only []; rw [load_store_ne _ _ _ _ (by omega)])
    · simp [processMessage, processByte, hp, hstx, completions,
        completions_processCompleteMessage, notifications]
      refine processCompleteMessage_congr _ _ rfl rfl ?_ ?_ ?_ <;>
        (simp only []; rw [load_store_ne _ _ _ _ (by omega)])

end MavlinkCore

namespace MavlinkCore

/-- As far as the array goes (`processByte`): two frames with the same header and payload
that differ only in their two trailer bytes are each emitted exactly once and leave the same
vehicle state and the same callback invocations.  This describes the decoder for the frames
whose stores all stay below index 12. -/
theorem trailer_ignored_in_array (s : Impl) (seq sysid compid msgid : Nat)
    (payload : List Nat) (c1 c2 d1 d2 : Nat)
    (hstate : s.parseState = ParseState.WAITING_FOR_STX) :
    completions (processMessage s
        ([0xFE, payload.length, seq, sysid, compid, msgid] ++ payload ++ [c1, c2])).2 = 1
    ∧ completions (processMessage s
        ([0xFE, payload.length, seq, sysid, compid, msgid] ++ payload ++ [d1, d2])).2 = 1
    ∧ (processMessage s
        ([0xFE, payload.length, seq, sysid, compid, msgid] ++ payload ++ [c1, c2])).1.vehicleState
      = (processMessage s
        ([0xFE, payload.length, seq, sysid, compid, msgid] ++ payload ++ [d1, d2])).1.vehicleState
    ∧ notifications (processMessage s
        ([0xFE, payload.length, seq, sysid, compid, msgid] ++ payload ++ [c1, c2])).2
      = notifications (processMessage s
        ([0xFE, payload.length, seq, sysid, compid, msgid] ++ payload ++ [d1, d2])).2 := by
  obtain ⟨hev, h6, hready⟩ := frame_body_reaches_trailer s seq sysid compid msgid payload hstate
  rw [processMessage_append_eq s _ [c1, c2], processMessage_append_eq s _ [d1, d2]]
  simp only [hev, List.nil_append]
  generalize (processMessage s
      ([0xFE, payload.length, seq, sysid, compid, msgid] ++ payload)).1 = t at h6 hready ⊢
  obtain ⟨a1, a2, a3⟩ := trailer_bytes_are_ignored t c1 c2 h6 hready
  obtain ⟨b1, b2, b3⟩ := trailer_bytes_are_ignored t d1 d2 h6 hready
  exact ⟨a1, b1, a2.trans b2.symm, a3.trans b3.symm⟩

theorem processCompleteMessage_expectedLength (s : Impl) :
    (processCompleteMessage s).1.expectedLength = s.expectedLength := by
  unfold processCompleteMessage
  simp only []
  split <;> rfl

theorem indexInRange_init (cb : Bool) :
    IndexInRange { Impl.init with stateCallback := cb } := by
  simp [IndexInRange, Impl.init]

theorem processByte_indexInRange (s : Impl) (byte : Nat) (h : IndexInRange s)
    (hbyte : byte < 256) : IndexInRange (processByte s byte).1 := by
  obtain ⟨vs, cb, stop, ps, buf, idx, el⟩ := s
  cases ps
  case WAITING_FOR_STX =>
    simp only [IndexInRange] at h
    by_cases hb : byte = MAV_STX
    · simp [IndexInRange, processByte, hb, h.1]
    · simp [IndexInRange, processByte, hb, h.1, h.2]
  case GOT_STX =>
    simp only [IndexInRange] at h
    simp [IndexInRange, processByte, h.2]
    omega
  case GOT_PAYLOAD =>
    simp only [IndexInRange] at h
    by_cases hc : 6 + el ≤ idx + 1
    · simp [IndexInRange, processByte, hc, h.1]
      omega
    · simp [IndexInRange, processByte, hc, h.1]
      omega
  case GOT_CHECKSUM1 =>
    simp only [IndexInRange] at h
    simp [IndexInRange, processByte, processCompleteMessage_expectedLength, h.1]
  case GOT_MSGID =>
    simp only [IndexInRange] at h
    by_cases hz : el = 0
    · simp [IndexInRange, processByte, ParseState.next, hz, h.2]
    · simp [IndexInRange, processByte, ParseState.next, hz, h.1, h.2]
      omega
  all_goals
    simp only [IndexInRange] at h
    simp [IndexInRange, processByte, ParseState.next, h.1, h.2]

theorem processMessage_indexInRange (s : Impl) (bytes : List Nat) (h : IndexInRange s)
    (hbytes : ∀ b ∈ bytes, b < 256) : IndexInRange (processMessage s bytes).1 := by
  induction bytes generalizing s with
  | nil => simpa [processMessage] using h
  | cons b rest ih =>
    simp only [processMessage]
    exact ih (processByte s b).1
      (processByte_indexInRange s b h (hbytes b (List.mem_cons_self _ _)))
      (fun x hx => hbytes x (List.mem_cons_of_mem _ hx))

theorem indexInRange_le (s : Impl) (h : IndexInRange s) : s.messageIndex + 1 ≤ 263 := by
  obtain ⟨vs, cb, stop, ps, buf, idx, el⟩ := s
  show idx + 1 ≤ 263
  cases ps <;> simp only [IndexInRange] at h <;> omega

end MavlinkCore

/-! ## Properties of the decoder: buffer capacity -/

namespace MavlinkCore

/-- As far as the array goes (`processByte`, where no store reaches another member): every
store made while a byte sequence is fed to a fresh decoder is at an index below 263, the
number the buffer-size constant is initialised from.  An array of 263 cells would hold every
store. -/
theorem store_indices_below_263 (cb : Bool) (bytes : List Nat)
    (hbytes : ∀ b ∈ bytes, b < 256) :
    ∀ i ∈ storeIndices { Impl.init with stateCallback := cb } bytes, i < 263 := by
  have hgen : ∀ (bs : List Nat) (s : Impl), IndexInRange s → (∀ b ∈ bs, b < 256) →
      ∀ i ∈ storeIndices s bs, i < 263 := by
    intro bs
    induction bs with
    | nil =>
      intro s _ _ i hi
      simp [storeIndices] at hi
    | cons b rest ih =>
      intro s hs hb i hi
      simp only [storeIndices, List.mem_append] at hi
      rcases hi with hi | hi
      · have hle := indexInRange_le s hs
        unfold storeIndex at hi
        split at hi
        · split at hi
          · simp at hi
            omega
          · simp at hi
        · simp at hi
          omega
      · exact ih (processByte s b).1
          (processByte_indexInRange s b hs (hb b (List.mem_cons_self _ _)))
          (fun x hx => hb x (List.mem_cons_of_mem _ hx)) i hi
  exact hgen bytes _ (indexInRange_init cb) hbytes

/-- C19, at the heartbeat frame `[0xFE, 0, 1, 2, 3, 0, 0x5A, 0xA5]` on a fresh decoder: the
buffer has `MAVLINK_MAX_PACKET_LEN = 7` cells, the eight bytes are stored at the indices
0 to 7, and the store of the eighth byte is at index 7, which is not below the capacity. -/
theorem eighth_byte_stored_past_buffer_end :
    MAVLINK_MAX_PACKET_LEN = 7
    ∧ Impl.init.messageBuffer.length = 7
    ∧ storeIndices Impl.init [0xFE, 0, 1, 2, 3, 0, 0x5A, 0xA5] = [0, 1, 2, 3, 4, 5, 6, 7]
    ∧ storeIndex (processMessage Impl.init [0xFE, 0, 1, 2, 3, 0, 0x5A]).1 0xA5 = some 7
    ∧ ¬ (∀ i ∈ storeIndices Impl.init [0xFE, 0, 1, 2, 3, 0, 0x5A, 0xA5],
          i < MAVLINK_MAX_PACKET_LEN) := by
  decide

end MavlinkCore

/-! ## Properties of the connection lifecycle and of the commands -/

namespace MavlinkCore

/-- With `shouldStop` clear, `stopConnection` clears the `connected` flag and sets
`shouldStop`; with `shouldStop` set it returns at once and changes nothing. -/
theorem stopConnection_cases (s : Impl) :
    (s.shouldStop = false →
      isConnected (stopConnection s).1 = false ∧ (stopConnection s).1.shouldStop = true)
    ∧ (s.shouldStop = true → stopConnection s = (s, [])) := by
  constructor
  · intro h
    simp [stopConnection, isConnected, h]
  · intro h
    simp [stopConnection, h]

/-- C20, at the call sequence `stopConnection(); processMessage(heartbeat frame);
stopConnection()` on a freshly constructed core: `isConnected()` is true after the second
`stopConnection()` has returned, because `shouldStop` was still set and the call returned
early. -/
theorem isConnected_true_after_stopConnection :
    isConnected (runCalls Impl.init
        [CoreCall.stopConnection,
         CoreCall.processMessage [0xFE, 0, 1, 2, 3, 0, 0x5A, 0xA5],
         CoreCall.stopConnection]) = true
    ∧ (runCalls Impl.init
        [CoreCall.stopConnection,
         CoreCall.processMessage [0xFE, 0, 1, 2, 3, 0, 0x5A, 0xA5]]).shouldStop = true
    ∧ isConnected (runCalls Impl.init
        [CoreCall.startConnection "10.0.0.1" 14550,
         CoreCall.stopConnection,
         CoreCall.processMessage [0xFE, 0, 1, 2, 3, 0, 0x5A, 0xA5],
         CoreCall.stopConnection]) = true := by
  decide

/-- C13 as stated fails at the empty host: `startConnection("", 14550)` on a fresh core
returns true and turns the `connected` flag from false to true; the C entry point
returns 1. -/
theorem startConnection_accepts_empty_host :
    (startConnection Impl.init "" 14550).2.2 = true
    ∧ isConnected Impl.init = false
    ∧ isConnected (startConnection Impl.init "" 14550).1 = true
    ∧ (mavlink_core_start_connection Impl.init "" 14550).2.2 = 1 := by
  decide

/-- C13, amended: `startConnection` does not look at the host: for every host, the empty
string included, and every port it returns true, sets the `connected` flag and clears
`shouldStop`, and the result is the same as for any other host and port. -/
theorem startConnection_always_succeeds (s : Impl) (host : String) (port : Int)
    (host2 : String) (port2 : Int) :
    (startConnection s host port).2.2 = true
    ∧ isConnected (startConnection s host port).1 = true
    ∧ (startConnection s host port).1.shouldStop = false
    ∧ (mavlink_core_start_connection s host port).2.2 = 1
    ∧ startConnection s host port = startConnection s host2 port2 := by
  refine ⟨rfl, rfl, rfl, rfl, rfl⟩

/-- C14 as stated fails at `sendCommand(400, 1, 0, 0, 0, 0, 0, 0)`: no byte is produced, and
the empty sequence does not have the shape of a frame. -/
theorem sendCommand_produces_no_frame :
    (sendCommand Impl.init MAV_CMD_COMPONENT_ARM_DISARM FLOAT_ONE 0 0 0 0 0 0).2.outbound = []
    ∧ frameShaped
        (sendCommand Impl.init MAV_CMD_COMPONENT_ARM_DISARM FLOAT_ONE 0 0 0 0 0 0).2.outbound
        = false
    ∧ frameShaped [0xFE, 0, 1, 2, 3, 0, 0x5A, 0xA5] = true := by
  decide

/-- C14, amended: for every command id and every seven parameters, `sendCommand` only logs
the command id and the parameters: it produces no outbound byte and leaves the state as it
is. -/
theorem sendCommand_only_logs (s : Impl) (command : Nat)
    (p1 p2 p3 p4 p5 p6 p7 : FloatBits) :
    (sendCommand s command p1 p2 p3 p4 p5 p6 p7).1 = s
    ∧ (sendCommand s command p1 p2 p3 p4 p5 p6 p7).2.outbound = []
    ∧ (sendCommand s command p1 p2 p3 p4 p5 p6 p7).2.logged
        = { command := command, param1 := p1, param2 := p2, param3 := p3, param4 := p4,
            param5 := p5, param6 := p6, param7 := p7 } := by
  refine ⟨rfl, rfl, rfl⟩

/-- C17: `takeoff a` calls `sendCommand` with command id 22, the altitude as seventh
parameter and zeros before it; `armDisarm b` with command id 400, first parameter `1.0` when
`b` holds and `0.0` otherwise, and zeros after it; `returnToLaunch` with command id 20 and
seven zeros. -/
theorem command_parameter_mapping (s : Impl) (a : FloatBits) (b : Bool) :
    (takeoff s a).2.logged
        = { command := 22, param1 := 0, param2 := 0, param3 := 0, param4 := 0,
            param5 := 0, param6 := 0, param7 := a }
    ∧ (armDisarm s b).2.logged
        = { command := 400, param1 := if b then FLOAT_ONE else 0, param2 := 0, param3 := 0,
            param4 := 0, param5 := 0, param6 := 0, param7 := 0 }
    ∧ (returnToLaunch s).2.logged
        = { command := 20, param1 := 0, param2 := 0, param3 := 0, param4 := 0,
            param5 := 0, param6 := 0, param7 := 0 } := by
  refine ⟨rfl, rfl, rfl⟩

end MavlinkCore

/-! ## Properties of the dispatcher: frame of the heartbeat update -/

namespace MavlinkCore

/-- C21: for a completed heartbeat frame (buffer cell 5 is `0`), `processCompleteMessage`
sets `connected`, `systemId` (cell 3) and `componentId` (cell 4) and keeps the fifteen other
fields of the vehicle state and every other member; the stored state is the same with and
without a registered callback, which only decides whether the new state is also passed to
the callback. -/
theorem heartbeat_changes_only_three_fields (s : Impl) (cb : Bool)
    (hid : load s.messageBuffer 5 = MAVLINK_MSG_ID_HEARTBEAT) :
    (processCompleteMessage s).1.vehicleState
        = { s.vehicleState with
              connected := true
              systemId := (load s.messageBuffer 3 : Nat)
              componentId := (load s.messageBuffer 4 : Nat) }
    ∧ ((processCompleteMessage s).1.vehicleState.armed = s.vehicleState.armed
      ∧ (processCompleteMessage s).1.vehicleState.mode = s.vehicleState.mode
      ∧ (processCompleteMessage s).1.vehicleState.latitude = s.vehicleState.latitude
      ∧ (processCompleteMessage s).1.vehicleState.longitude = s.vehicleState.longitude
      ∧ (processCompleteMessage s).1.vehicleState.altitude = s.vehicleState.altitude
      ∧ (processCompleteMessage s).1.vehicleState.heading = s.vehicleState.heading
      ∧ (processCompleteMessage s).1.vehicleState.roll = s.vehicleState.roll
      ∧ (processCompleteMessage s).1.vehicleState.pitch = s.vehicleState.pitch
      ∧ (processCompleteMessage s).1.vehicleState.yaw = s.vehicleState.yaw
      ∧ (processCompleteMessage s).1.vehicleState.groundSpeed = s.vehicleState.groundSpeed
      ∧ (processCompleteMessage s).1.vehicleState.airSpeed = s.vehicleState.airSpeed
      ∧ (processCompleteMessage s).1.vehicleState.batteryVoltage
          = s.vehicleState.batteryVoltage
      ∧ (processCompleteMessage s).1.vehicleState.batteryRemaining
          = s.vehicleState.batteryRemaining
      ∧ (processCompleteMessage s).1.vehicleState.gpsFixType = s.vehicleState.gpsFixType
      ∧ (processCompleteMessage s).1.vehicleState.gpsNumSatellites
          = s.vehicleState.gpsNumSatellites)
    ∧ (processCompleteMessage s).1 = { s with vehicleState := (processCompleteMessage s).1.vehicleState }
    ∧ (processCompleteMessage { s with stateCallback := cb }).1.vehicleState
        = (processCompleteMessage s).1.vehicleState
    ∧ (processCompleteMessage { s with stateCallback := true }).2
        = [Event.stateCallback (processCompleteMessage s).1.vehicleState]
    ∧ (processCompleteMessage { s with stateCallback := false }).2 = [] := by
  simp [processCompleteMessage, updateState, hid]

/-- An instance of C21: a heartbeat frame from system 2, component 3, completed on a decoder
whose vehicle state was armed, in mode `AUTO`, with a battery reading. -/
theorem heartbeat_changes_only_three_fields_witness :
    (processCompleteMessage
        { Impl.init with
            vehicleState :=
              { VehicleState.init with armed := true, mode := "AUTO", batteryRemaining := 87 }
            messageBuffer := [0xFE, 0, 1, 2, 3, 0, 0x5A] }).1.vehicleState
      = { VehicleState.init with
            connected := true, armed := true, mode := "AUTO", systemId := 2,
            componentId := 3, batteryRemaining := 87 }
    ∧ (processCompleteMessage
        { Impl.init with
            vehicleState :=
              { VehicleState.init with armed := true, mode := "AUTO", batteryRemaining := 87 }
            messageBuffer := [0xFE, 0, 1, 2, 3, 0, 0x5A] }).1.vehicleState.mode = "AUTO" :=
  ⟨(heartbeat_changes_only_three_fields
      { Impl.init with
          vehicleState :=
            { VehicleState.init with armed := true, mode := "AUTO", batteryRemaining := 87 }
          messageBuffer := [0xFE, 0, 1, 2, 3, 0, 0x5A] } true rfl).1,
    by decide⟩

end MavlinkCore

/-! ## Properties of the decoder: stores that leave the array -/

namespace MavlinkCore

theorem storeInObject_below_12 (s : Impl) (i byte : Nat) (hi : i < 12)
    (hlen : s.messageBuffer.length = MAVLINK_MAX_PACKET_LEN) :
    storeInObject s i byte = some { s with messageBuffer := store s.messageBuffer i byte } := by
  unfold storeInObject store
  by_cases h7 : i < MAVLINK_MAX_PACKET_LEN
  · simp [h7]
  · have hge : s.messageBuffer.length ≤ i := by omega
    simp [h7, hi, List.set_eq_of_length_le hge]

theorem storeAndAdvance_below_12 (s : Impl) (byte : Nat) (hi : s.messageIndex < 12)
    (hlen : s.messageBuffer.length = MAVLINK_MAX_PACKET_LEN) :
    storeAndAdvance s byte
      = some { s with messageBuffer := store s.messageBuffer s.messageIndex byte
                      messageIndex := s.messageIndex + 1 } := by
  unfold storeAndAdvance
  have hmod : (s.messageIndex + 1) % SIZE_MOD = s.messageIndex + 1 := by
    apply Nat.mod_eq_of_lt
    simp only [SIZE_MOD]
    omega
  rw [storeInObject_below_12 _ _ _ hi (by simpa using hlen), hmod]

/-- One call: while the cell written has an index below 12 (a cell of the array or the
padding behind it), the call on the object is the call as far as the array goes. -/
theorem processByteInObject_eq_processByte (s : Impl) (byte : Nat)
    (hidx : ∀ i ∈ storeIndex s byte, i < 12)
    (hlen : s.messageBuffer.length = MAVLINK_MAX_PACKET_LEN) :
    processByteInObject s byte = some (processByte s byte) := by
  obtain ⟨vs, cb, stop, ps, buf, idx, el⟩ := s
  have hlen2 : buf.length = MAVLINK_MAX_PACKET_LEN := hlen
  cases ps
  case WAITING_FOR_STX =>
    by_cases hb : byte = MAV_STX
    · have h0 := storeInObject_below_12
        { vehicleState := vs, stateCallback := cb, shouldStop := stop,
          parseState := ParseState.WAITING_FOR_STX, messageBuffer := buf,
          messageIndex := idx, expectedLength := el } 0 MAV_STX (by decide) hlen2
      simp [processByteInObject, processByte, hb, h0]
    · simp [processByteInObject, processByte, hb]
  all_goals
    have hi : idx < 12 := hidx idx (by simp [storeIndex])
    simp [processByteInObject, processByte, storeAndAdvance_below_12, hi, hlen2]

theorem processCompleteMessage_messageBuffer (s : Impl) :
    (processCompleteMessage s).1.messageBuffer = s.messageBuffer := by
  unfold processCompleteMessage
  simp only []
  split <;> rfl

theorem processByte_buffer_length (s : Impl) (byte : Nat) :
    (processByte s byte).1.messageBuffer.length = s.messageBuffer.length := by
  obtain ⟨vs, cb, stop, ps, buf, idx, el⟩ := s
  cases ps
  case WAITING_FOR_STX =>
    by_cases hb : byte = MAV_STX <;> simp [processByte, hb, store]
  all_goals simp [processByte, store, processCompleteMessage_messageBuffer]

/-- A whole byte sequence: while every cell written has an index below 12, `processMessage`
on the object is `processMessage` as far as the array goes. -/
theorem processMessageInObject_eq_processMessage (bytes : List Nat) (s : Impl)
    (hidx : ∀ i ∈ storeIndices s bytes, i < 12)
    (hlen : s.messageBuffer.length = MAVLINK_MAX_PACKET_LEN) :
    processMessageInObject s bytes = some (processMessage s bytes) := by
  induction bytes generalizing s with
  | nil => rfl
  | cons b rest ih =>
    have hstep := processByteInObject_eq_processByte s b
      (fun i hi => hidx i (by
        simp only [storeIndices, List.mem_append]
        exact Or.inl (by simpa using hi))) hlen
    have hrest := ih (processByte s b).1
      (fun i hi => hidx i (by
        simp only [storeIndices, List.mem_append]
        exact Or.inr hi))
      (by rw [processByte_buffer_length]; exact hlen)
    simp [processMessageInObject, processMessage, hstep, hrest]

/-- A frame with at most five payload bytes is stored below index 12, whatever its bytes
are. -/
theorem short_frame_stores_below_12 (s : Impl) (seq sysid compid msgid : Nat)
    (payload : List Nat) (c1 c2 : Nat)
    (hstate : s.parseState = ParseState.WAITING_FOR_STX) (hshort : payload.length ≤ 5) :
    ∀ i ∈ storeIndices s
        ([0xFE, payload.length, seq, sysid, compid, msgid] ++ payload ++ [c1, c2]),
      i < 12 := by
  match payload, hshort with
  | [], _ =>
    intro i hi
    simp [storeIndices, storeIndex, processByte, hstate, MAV_STX, ParseState.next] at hi
    omega
  | [p0], _ =>
    intro i hi
    simp [storeIndices, storeIndex, processByte, hstate, MAV_STX, ParseState.next] at hi
    omega
  | [p0, p1], _ =>
    intro i hi
    simp [storeIndices, storeIndex, processByte, hstate, MAV_STX, ParseState.next] at hi
    by_cases hc : c2 = 254 <;> simp [hc] at hi <;> omega
  | [p0, p1, p2], _ =>
    intro i hi
    simp [storeIndices, storeIndex, processByte, hstate, MAV_STX, ParseState.next] at hi
    by_cases hc : c2 = 254 <;> simp [hc] at hi <;> omega
  | [p0, p1, p2, p3], _ =>
    intro i hi
    simp [storeIndices, storeIndex, processByte, hstate, MAV_STX, ParseState.next] at hi
    by_cases hc : c2 = 254 <;> simp [hc] at hi <;> omega
  | [p0, p1, p2, p3, p4], _ =>
    intro i hi
    simp [storeIndices, storeIndex, processByte, hstate, MAV_STX, ParseState.next] at hi
    by_cases hc : c2 = 254 <;> simp [hc] at hi <;> omega

/-- On the object, for payloads of at most five bytes: two frames that differ only in their
trailer are each dispatched exactly once and leave the same vehicle state and the same
callback invocations. -/
theorem trailer_ignored_for_short_payloads (s : Impl) (seq sysid compid msgid : Nat)
    (payload : List Nat) (c1 c2 d1 d2 : Nat)
    (hstate : s.parseState = ParseState.WAITING_FOR_STX)
    (hlen : s.messageBuffer.length = MAVLINK_MAX_PACKET_LEN) (hshort : payload.length ≤ 5) :
    ∃ r1 r2,
      processMessageInObject s
          ([0xFE, payload.length, seq, sysid, compid, msgid] ++ payload ++ [c1, c2]) = some r1
      ∧ processMessageInObject s
          ([0xFE, payload.length, seq, sysid, compid, msgid] ++ payload ++ [d1, d2]) = some r2
      ∧ completions r1.2 = 1 ∧ completions r2.2 = 1
      ∧ r1.1.vehicleState = r2.1.vehicleState
      ∧ notifications r1.2 = notifications r2.2 := by
  obtain ⟨a1, a2, a3, a4⟩ :=
    trailer_ignored_in_array s seq sysid compid msgid payload c1 c2 d1 d2 hstate
  exact ⟨_, _,
    processMessageInObject_eq_processMessage _ s
      (short_frame_stores_below_12 s seq sysid compid msgid payload c1 c2 hstate hshort) hlen,
    processMessageInObject_eq_processMessage _ s
      (short_frame_stores_below_12 s seq sysid compid msgid payload d1 d2 hstate hshort) hlen,
    a1, a2, a3, a4⟩

/-- C15, at the header `[0xFE, 8, 1, 2, 3, 0]` with payload `[1, 2, 3, 4, 5, 6, 12, 12]` on a
fresh decoder with a callback registered: with the trailer `[0x01, 0x22]` the frame is not
dispatched (no callback, vehicle state still disconnected, the decoder left in `GOT_PAYLOAD`
with index 2 and the second trailer byte in cell 1), while with the trailer `[0x0E, 0x00]`
it is dispatched once and the vehicle state becomes connected.  The seventh payload byte is
stored at index 12, in `messageIndex`. -/
theorem trailer_decides_dispatch_of_long_frame :
    (processMessageInObject (setStateUpdateCallback Impl.init)
        ([0xFE, 8, 1, 2, 3, 0] ++ [1, 2, 3, 4, 5, 6, 12, 12] ++ [0x01, 0x22])).map
      (fun r => completions r.2) = some 0
    ∧ (processMessageInObject (setStateUpdateCallback Impl.init)
        ([0xFE, 8, 1, 2, 3, 0] ++ [1, 2, 3, 4, 5, 6, 12, 12] ++ [0x01, 0x22])).map
      (fun r => notifications r.2) = some []
    ∧ (processMessageInObject (setStateUpdateCallback Impl.init)
        ([0xFE, 8, 1, 2, 3, 0] ++ [1, 2, 3, 4, 5, 6, 12, 12] ++ [0x01, 0x22])).map
      (fun r => r.1.vehicleState.connected) = some false
    ∧ (processMessageInObject (setStateUpdateCallback Impl.init)
        ([0xFE, 8, 1, 2, 3, 0] ++ [1, 2, 3, 4, 5, 6, 12, 12] ++ [0x01, 0x22])).map
      (fun r => r.1.parseState) = some ParseState.GOT_PAYLOAD
    ∧ (processMessageInObject (setStateUpdateCallback Impl.init)
        ([0xFE, 8, 1, 2, 3, 0] ++ [1, 2, 3, 4, 5, 6, 12, 12] ++ [0x01, 0x22])).map
      (fun r => r.1.messageIndex) = some 2
    ∧ (processMessageInObject (setStateUpdateCallback Impl.init)
        ([0xFE, 8, 1, 2, 3, 0] ++ [1, 2, 3, 4, 5, 6, 12, 12] ++ [0x01, 0x22])).map
      (fun r => r.1.messageBuffer) = some [0xFE, 0x22, 1, 2, 3, 0, 1]
    ∧ (processMessageInObject (setStateUpdateCallback Impl.init)
        ([0xFE, 8, 1, 2, 3, 0] ++ [1, 2, 3, 4, 5, 6, 12, 12] ++ [0x0E, 0x00])).map
      (fun r => completions r.2) = some 1
    ∧ (processMessageInObject (setStateUpdateCallback Impl.init)
        ([0xFE, 8, 1, 2, 3, 0] ++ [1, 2, 3, 4, 5, 6, 12, 12] ++ [0x0E, 0x00])).map
      (fun r => (notifications r.2).length) = some 1
    ∧ (processMessageInObject (setStateUpdateCallback Impl.init)
        ([0xFE, 8, 1, 2, 3, 0] ++ [1, 2, 3, 4, 5, 6, 12, 12] ++ [0x0E, 0x00])).map
      (fun r => r.1.vehicleState.connected) = some true
    ∧ storeIndices (setStateUpdateCallback Impl.init)
        [0xFE, 8, 1, 2, 3, 0, 1, 2, 3, 4, 5, 6, 12]
      = [0, 1, 2, 3, 4, 5, 6, 7, 8, 9, 10, 11, 12] := by
  decide

/-- C18, at the bytes `[0xFE, 8, 1, 2, 3, 0, 1, 2, 3, 4, 5, 6, 13, 0xFF]` fed to a fresh
decoder: the last two bytes are stored at the indices 12 and 13, which are the two low bytes
of `messageIndex`, and the state reached has `messageIndex = 65294`, which exceeds 263; the
store of one more byte would leave the object. -/
theorem messageIndex_overwritten_by_payload :
    (processMessageInObject Impl.init
        [0xFE, 8, 1, 2, 3, 0, 1, 2, 3, 4, 5, 6]).map (fun r => r.1.messageIndex) = some 12
    ∧ (processMessageInObject Impl.init
        [0xFE, 8, 1, 2, 3, 0, 1, 2, 3, 4, 5, 6, 13]).map (fun r => r.1.messageIndex) = some 13
    ∧ (processMessageInObject Impl.init
        [0xFE, 8, 1, 2, 3, 0, 1, 2, 3, 4, 5, 6, 13, 0xFF]).map (fun r => r.1.messageIndex)
      = some 65294
    ∧ ¬ (65294 ≤ 263)
    ∧ processMessageInObject Impl.init
        [0xFE, 8, 1, 2, 3, 0, 1, 2, 3, 4, 5, 6, 13, 0xFF, 0x00] = none := by
  decide

end MavlinkCore
